import Mathlib

/-!
# Verification of the generic CRUD / analytics repository

Shallow embedding of the query-translation and analysis-pipeline subsystem
of the repository, together with theorems settling the frozen claims.

The repository contains three variants of the subsystem:
* `analytics-engine_2` (`app/dal/query_builder.py`, `app/services/...`),
* `analytics_engine_1` (`app/dal/data_access_layer.py`, `app/processing/...`),
* `sal_1` (`dal.py`, `models.py`).

Python dictionaries are modelled as insertion-ordered association lists
(`List (String × _)`); setting an existing key updates it in place, setting a
fresh key appends at the end, exactly like a CPython `dict`.  Python numbers
are modelled as exact rationals (`ℚ`); Python exceptions are modelled with
`Except String`.  MongoDB behaviour (`find`, sort, skip, limit, the operator
semantics of filter documents) is external-library behaviour and is modelled
explicitly below where the code delegates to it; every such modelling choice
is recorded in a doc comment.
-/

set_option autoImplicit false

namespace GenericCrud

/-- A primitive (non-container) BSON value: null, boolean, number (Python
`int`/`float` modelled as an exact rational), string, or a MongoDB ObjectId
(carrying its hex representation, which is what `str(ObjectId)` yields). -/
inductive Prim where
  | null
  | bool (b : Bool)
  | num (q : ℚ)
  | str (s : String)
  | oid (hex : String)
  deriving DecidableEq, Repr

/-- A BSON value as stored in a document field or passed to the query
builders: a primitive, an array of primitives, or a flat sub-document of
primitives (used e.g. for the `regex` condition value of engine 1 and for
`$elemMatch` criteria).  Deeper nesting does not occur in the code paths the
claims are about. -/
inductive Value where
  | prim (p : Prim)
  | arr (l : List Prim)
  | pdoc (d : List (String × Prim))
  deriving DecidableEq, Repr

/-- A MongoDB document: an insertion-ordered field map. -/
abbrev Doc := List (String × Value)

/-- Association-list lookup, first match wins (CPython dict lookup). -/
def getKey {α : Type} (d : List (String × α)) (k : String) : Option α :=
  match d with
  | [] => none
  | (k', v) :: rest => if k' == k then some v else getKey rest k

/-- CPython `dict` assignment: update the key in place if present (keeping
its position), otherwise append the new binding at the end. -/
def setKey {α : Type} (d : List (String × α)) (k : String) (v : α) :
    List (String × α) :=
  match d with
  | [] => [(k, v)]
  | (k', v') :: rest =>
      if k' == k then (k, v) :: rest else (k', v') :: setKey rest k v

/-- CPython `key in dict`. -/
def hasKey {α : Type} (d : List (String × α)) (k : String) : Bool :=
  (getKey d k).isSome

/-- The accumulated clause for one field of a MongoDB filter document: either
a direct value (`{field: value}`, produced by `eq` in engine 2 and `equals`
in sal_1) or an operator sub-document (`{field: {"$op": v, ...}}`). -/
inductive Clause where
  | direct (v : Value)
  | ops (m : List (String × Value))
  deriving DecidableEq, Repr

/-- One member of a top-level `$or` list: a sub-filter document mapping
fields to clauses (the callers pass plain condition dictionaries). -/
abbrev SubFilter := List (String × Clause)

/-! ## Modelled MongoDB matching semantics

The builders hand their accumulated filter to `collection.find`.  The
predicate below models how MongoDB matches one document against such a
filter, for the operators the builders can emit.  Modelling choices (noted
inline): only same-type comparisons order (`num` with `num`, `str` with
`str`); BSON cross-type ordering is not modelled; `$regex` is modelled for
the literal (escaped) patterns the code produces, any other pattern matches
nothing. -/

/-- The characters escaped by Python's `re.escape` (CPython ≥ 3.7 escapes
exactly this set). -/
def specialChars : List Char :=
  ['(', ')', '[', ']', '\x7b', '\x7d', '?', '*', '+', '-', '|', '^', '$',
   '\\', '.', '&', '~', '#', ' ', '\t', '\n', '\r', '\x0b', '\x0c']

/-- Is `c` a regex metacharacter (a member of the `re.escape` set)? -/
def isSpecialChar (c : Char) : Bool := specialChars.contains c

/-- Python `re.escape` on a character list: prefix every special character
with a backslash. -/
def escList : List Char → List Char
  | [] => []
  | c :: cs => if isSpecialChar c then '\\' :: c :: escList cs else c :: escList cs

/-- Python `re.escape`. -/
def escapeRe (s : String) : String := ⟨escList s.data⟩

/-- Parse the body of a pattern (after any leading `^`) as a literal: an
escaped character stands for itself, a final unescaped `$` is the end
anchor, any other metacharacter makes the pattern non-literal (`none`).
Returns the literal characters and whether the end anchor is present. -/
def goPat : List Char → Option (List Char × Bool)
  | [] => some ([], false)
  | c :: rest =>
      if c == '\\' then
        match rest with
        | [] => none
        | d :: rest2 => (goPat rest2).map fun q => (d :: q.1, q.2)
      else if c == '$' then (if rest.isEmpty then some ([], true) else none)
      else if isSpecialChar c then none
      else (goPat rest).map fun q => (c :: q.1, q.2)

/-- Parse a regex pattern as an anchored literal:
`(start-anchored?, literal characters, end-anchored?)`, or `none` if the
pattern is not of that shape. -/
def parsePattern (p : String) : Option (Bool × List Char × Bool) :=
  match p.data with
  | [] => some (false, [], false)
  | c :: rest =>
      if c == '^' then (goPat rest).map fun q => (true, q.1, q.2)
      else (goPat (c :: rest)).map fun q => (false, q.1, q.2)

/-- ASCII case folding, modelling the effect of the `"i"` regex option. -/
def foldCase (s : List Char) : List Char := s.map Char.toLower

/-- Is `lit` a contiguous substring of the subject? -/
def isSubstring (lit : List Char) : List Char → Bool
  | [] => lit.isEmpty
  | c :: rest => lit.isPrefixOf (c :: rest) || isSubstring lit rest

/-- Modelled `$regex` matching: a string field matches a literal pattern
according to its anchors (prefix / suffix / substring / equality), folding
case when the `"i"` option is present.  Patterns that are not escaped
literals (which the builders never produce) match nothing. -/
def regexMatches (pattern : String) (caseInsensitive : Bool) (s : String) :
    Bool :=
  match parsePattern pattern with
  | none => false
  | some (anchS, lit, anchE) =>
      let subj := if caseInsensitive then foldCase s.data else s.data
      let lit := if caseInsensitive then foldCase lit else lit
      match anchS, anchE with
      | true, true => subj == lit
      | true, false => lit.isPrefixOf subj
      | false, true => lit.isSuffixOf subj
      | false, false => isSubstring lit subj

/-- Rank used for comparing primitives of different BSON types (modelled;
only used by the sort stage). -/
def primRank : Prim → Nat
  | .null => 0
  | .num _ => 1
  | .str _ => 2
  | .oid _ => 3
  | .bool _ => 4

/-- Modelled BSON comparison of two primitives: within `num` and `str` the
natural order, otherwise ordering by type rank. -/
def primCmp (a b : Prim) : Ordering :=
  match a, b with
  | .num x, .num y => compare x y
  | .str x, .str y => compare x y
  | .bool x, .bool y => compare (cond x 1 0) (cond (y : Bool) 1 (0 : Nat))
  | .oid x, .oid y => compare x y
  | _, _ => compare (primRank a) (primRank b)

/-- Strict `<` on values for `$gt`/`$lt` comparisons: modelled only between
two numbers or two strings (MongoDB would not match across types here
either, since the builders compare a field against a literal). -/
def valueLt (a b : Value) : Bool :=
  match a, b with
  | .prim (.num x), .prim (.num y) => decide (x < y)
  | .prim (.str x), .prim (.str y) => decide (x < y)
  | _, _ => false

/-- MongoDB equality of a stored field value against a query value: direct
equality, or (for an array field) membership of the query primitive. -/
def valueMatchesEq (stored : Value) (queryVal : Value) : Bool :=
  stored == queryVal ||
    (match stored, queryVal with
     | .arr l, .prim p => l.contains p
     | _, _ => false)

/-- `$in`: the field value equals one of the listed values, or the field is
an array intersecting them. -/
def valueMatchesIn (stored : Option Value) (l : List Prim) : Bool :=
  match stored with
  | none => false
  | some (.prim p) => l.contains p
  | some (.arr a) => a.any l.contains
  | some (.pdoc _) => false

/-- Name MongoDB's `$type` gives the stored value (modelled subset). -/
def valueTypeName : Value → String
  | .prim .null => "null"
  | .prim (.bool _) => "bool"
  | .prim (.num _) => "double"
  | .prim (.str _) => "string"
  | .prim (.oid _) => "objectId"
  | .arr _ => "array"
  | .pdoc _ => "object"

/-- One `$elemMatch` criterion applied to an array element (modelled subset:
the comparison operators on primitives). -/
def elemCrit (k : String) (v : Prim) (p : Prim) : Bool :=
  if k == "$eq" then p == v
  else if k == "$ne" then p != v
  else if k == "$gt" then valueLt (.prim v) (.prim p)
  else if k == "$lt" then valueLt (.prim p) (.prim v)
  else if k == "$gte" then p == v || valueLt (.prim v) (.prim p)
  else if k == "$lte" then p == v || valueLt (.prim p) (.prim v)
  else false

/-- Does document `d` satisfy one operator pair `(op, v)` of the operator
sub-document accumulated for `field`?  `optsI` says whether the sibling
`$options` key requests case-insensitive regex matching. -/
def matchOp (d : Doc) (field : String) (op : String) (v : Value)
    (optsI : Bool) : Bool :=
  let stored := getKey d field
  if op == "$ne" then
    !(match stored with
      | some w => valueMatchesEq w v
      | none => v == .prim .null)
  else if op == "$gt" then match stored with
    | some w => valueLt v w
    | none => false
  else if op == "$gte" then match stored with
    | some w => w == v || valueLt v w
    | none => false
  else if op == "$lt" then match stored with
    | some w => valueLt w v
    | none => false
  else if op == "$lte" then match stored with
    | some w => w == v || valueLt w v
    | none => false
  else if op == "$in" then match v with
    | .arr l => valueMatchesIn stored l
    | _ => false
  else if op == "$nin" then match v with
    | .arr l => !(valueMatchesIn stored l)
    | _ => false
  else if op == "$exists" then
    (match v with
     | .prim (.bool b) => stored.isSome == b
     | _ => stored.isSome)
  else if op == "$type" then match stored, v with
    | some w, .prim (.str t) => valueTypeName w == t
    | _, _ => false
  else if op == "$size" then match stored, v with
    | some (.arr a), .prim (.num n) => decide ((a.length : ℚ) = n)
    | _, _ => false
  else if op == "$all" then match stored, v with
    | some (.arr a), .arr l => l.all a.contains
    | _, _ => false
  else if op == "$regex" then match stored, v with
    | some (.prim (.str s)), .prim (.str pat) => regexMatches pat optsI s
    | _, _ => false
  else if op == "$options" then true  -- consumed by the sibling $regex key
  else if op == "$elemMatch" then match stored, v with
    | some (.arr a), .pdoc crit => a.any fun p => crit.all fun kv => elemCrit kv.1 kv.2 p
    | _, _ => false
  else false

/-- Does the `$options` entry of an operator sub-document request
case-insensitive matching (contains an `i`)? -/
def opsCaseInsensitive (m : List (String × Value)) : Bool :=
  match getKey m "$options" with
  | some (.prim (.str o)) => o.data.contains 'i'
  | _ => false

/-- Does document `d` satisfy the clause accumulated for `field`? -/
def matchesClause (d : Doc) (field : String) (c : Clause) : Bool :=
  match c with
  | .direct v =>
      (match getKey d field with
       | some w => valueMatchesEq w v
       | none => v == .prim .null)  -- MongoDB: a missing field equals null
  | .ops m => m.all fun kv => matchOp d field kv.1 kv.2 (opsCaseInsensitive m)

/-- Does document `d` satisfy a sub-filter (every field clause holds)? -/
def matchesSubFilter (f : SubFilter) (d : Doc) : Bool :=
  f.all fun kc => matchesClause d kc.1 kc.2

/-- Does `d` satisfy the whole accumulated filter: every field clause, and,
when a `$or` entry exists, at least one of its sub-filters? -/
def matchesFilter (fields : SubFilter) (orConds : Option (List SubFilter))
    (d : Doc) : Bool :=
  matchesSubFilter fields d &&
    (match orConds with
     | none => true
     | some l => l.any fun f => matchesSubFilter f d)

/-! ## Generic stable insertion sort

Used to model both `pandas` sorting (stable) and the deterministic order we
ascribe to MongoDB's sort stage.  `le a b = true` means `a` may stay before
`b`. -/

/-- Insert `x` before the first element it `le`-precedes-or-ties (stable). -/
def insertLe {α : Type} (le : α → α → Bool) (x : α) : List α → List α
  | [] => [x]
  | y :: l => if le x y then x :: y :: l else y :: insertLe le x l

/-- Stable insertion sort. -/
def sortLe {α : Type} (le : α → α → Bool) : List α → List α
  | [] => []
  | x :: l => insertLe le x (sortLe le l)

/-- Lexicographic document comparison along a sort-parameter list
`(field, direction)` with MongoDB directions `1` / `-1`; a missing field
sorts as null (modelled). -/
def docCmp (sp : List (String × Int)) (a b : Doc) : Ordering :=
  match sp with
  | [] => .eq
  | (f, dir) :: rest =>
      let va := (getKey a f).getD (.prim .null)
      let vb := (getKey b f).getD (.prim .null)
      let pa := match va with | .prim p => p | _ => .null
      let pb := match vb with | .prim p => p | _ => .null
      let o := primCmp pa pb
      let o := if dir < 0 then (match o with | .lt => Ordering.gt | .gt => .lt | .eq => .eq) else o
      match o with
      | .eq => docCmp rest a b
      | r => r

/-- The modelled sort stage: a stable sort by the comparison above. -/
def sortDocs (sp : List (String × Int)) (docs : List Doc) : List Doc :=
  sortLe (fun a b => docCmp sp a b ≠ .gt) docs

/-- `str(...)` applied to a stored `_id` value (pymongo's ObjectId prints as
its hex string).  Only the cases relevant to identifiers are given a
faithful rendering. -/
def pyStrOfValue : Value → String
  | .prim (.str s) => s
  | .prim (.oid h) => h
  | .prim (.num q) => toString q
  | .prim (.bool b) => cond b "True" "False"
  | .prim .null => "None"
  | .arr _ => "<list>"
  | .pdoc _ => "<dict>"

/-- `doc["_id"] = str(doc["_id"])` when `_id` is present. -/
def stringifyId (d : Doc) : Doc :=
  match getKey d "_id" with
  | some v => setKey d "_id" (.prim (.str (pyStrOfValue v)))
  | none => d

/-! ## Engine 2 query builder
(`analytics-engine_2/app/dal/query_builder.py`, class `MongoQueryBuilder`)

The Python `self.query` dict maps field names to clauses and may also hold
the reserved `"$or"` key (a list of condition documents).  Since that entry
has a different shape from field clauses, it is modelled as a separate
component `orConds` (`none` = key absent). -/

structure Builder2 where
  fields : SubFilter := []
  orConds : Option (List SubFilter) := none
  sortParams : Option (List (String × Int)) := none
  limitCount : Option Int := none
  skipCount : Int := 0
  deriving Repr

/-- The operator strings `add_filter` recognizes (engine 2). -/
def knownOps2 : List String :=
  ["eq", "ne", "gt", "gte", "lt", "lte", "in", "nin", "exists", "type",
   "regex", "all", "size"]

/-- `MongoQueryBuilder.add_filter` (engine 2).  Every recognized operator
*assigns* `self.query[field]`, replacing whatever clause the field had; an
unrecognized operator only logs a warning and leaves the query unchanged.
`optCaseInsensitive` models the truthiness of
`options and options.get("case_insensitive")`. -/
def Builder2.addFilter (b : Builder2) (field op : String) (value : Value)
    (optCaseInsensitive : Bool := false) : Builder2 :=
  if op == "eq" then
    { b with fields := setKey b.fields field (.direct value) }
  else if op == "ne" then
    { b with fields := setKey b.fields field (.ops [("$ne", value)]) }
  else if op == "gt" then
    { b with fields := setKey b.fields field (.ops [("$gt", value)]) }
  else if op == "gte" then
    { b with fields := setKey b.fields field (.ops [("$gte", value)]) }
  else if op == "lt" then
    { b with fields := setKey b.fields field (.ops [("$lt", value)]) }
  else if op == "lte" then
    { b with fields := setKey b.fields field (.ops [("$lte", value)]) }
  else if op == "in" then
    { b with fields := setKey b.fields field (.ops [("$in", value)]) }
  else if op == "nin" then
    { b with fields := setKey b.fields field (.ops [("$nin", value)]) }
  else if op == "exists" then
    { b with fields := setKey b.fields field (.ops [("$exists", value)]) }
  else if op == "type" then
    { b with fields := setKey b.fields field (.ops [("$type", value)]) }
  else if op == "regex" then
    let opts : Value := .prim (.str (if optCaseInsensitive then "i" else ""))
    { b with fields := setKey b.fields field (.ops [("$regex", value), ("$options", opts)]) }
  else if op == "all" then
    { b with fields := setKey b.fields field (.ops [("$all", value)]) }
  else if op == "size" then
    { b with fields := setKey b.fields field (.ops [("$size", value)]) }
  else
    b  -- logger.warning(f"Unknown operator: {operator}"); state unchanged

/-- `MongoQueryBuilder.add_elem_match` (engine 2). -/
def Builder2.addElemMatch (b : Builder2) (field : String)
    (criteria : List (String × Prim)) : Builder2 :=
  { b with fields := setKey b.fields field (.ops [("$elemMatch", .pdoc criteria)]) }

/-- `MongoQueryBuilder.add_or_condition` (engine 2): create the `$or` list
if absent, then extend it with the given conditions. -/
def Builder2.addOrCondition (b : Builder2) (conditions : List SubFilter) :
    Builder2 :=
  { b with orConds := some ((b.orConds.getD []) ++ conditions) }

/-- `MongoQueryBuilder.set_sort` (engine 2): `"asc"` (case-insensitively)
maps to pymongo `ASCENDING = 1`, anything else to `DESCENDING = -1`;
appended to the sort list. -/
def Builder2.setSort (b : Builder2) (field : String)
    (direction : String := "asc") : Builder2 :=
  let dir : Int := if direction.toLower == "asc" then 1 else -1
  { b with sortParams := some ((b.sortParams.getD []) ++ [(field, dir)]) }

/-- `MongoQueryBuilder.set_limit` (engine 2). -/
def Builder2.setLimit (b : Builder2) (count : Int) : Builder2 :=
  { b with limitCount := some count }

/-- `MongoQueryBuilder.set_skip` (engine 2). -/
def Builder2.setSkip (b : Builder2) (count : Int) : Builder2 :=
  { b with skipCount := count }

/-- Does this document satisfy the builder's accumulated filter? -/
def Builder2.matches (b : Builder2) (d : Doc) : Bool :=
  matchesFilter b.fields b.orConds d

/-- `MongoQueryBuilder.execute` (engine 2) over the collection's documents:
`find(query)`, then `sort` if `sort_params` is truthy, then `skip` if
`skip_count > 0`, then `limit` if `limit_count` is truthy (Python truthiness:
`None` and `0` are both falsy), then `str(...)`-convert every `_id`.
A negative limit is modelled like pymongo's (`|n|` documents). -/
def Builder2.execute (b : Builder2) (collection : List Doc) : List Doc :=
  let filtered := collection.filter b.matches
  let sorted :=
    match b.sortParams with
    | some sp => if sp.isEmpty then filtered else sortDocs sp filtered
    | none => filtered
  let skipped := if b.skipCount > 0 then sorted.drop b.skipCount.toNat else sorted
  let limited :=
    match b.limitCount with
    | some n => if n == 0 then skipped else skipped.take n.natAbs
    | none => skipped
  limited.map stringifyId

/-! ## Engine 1 query builder
(`analytics_engine_1/app/dal/data_access_layer.py`, class `MongoQueryBuilder`)

Here every field clause is an operator sub-document
(`self._filter.setdefault(field, {})[nativeKey] = value`), the `$or` key is
again modelled as a separate component, and an unsupported operator *raises*
`ValueError` (modelled with `Except.error`). -/

structure Builder1 where
  filter : List (String × List (String × Value)) := []
  orConds : Option (List SubFilter) := none
  sort : Option (List (String × Int)) := none
  limit : Option Int := none
  skip : Option Int := none
  deriving Repr

/-- The `op_map` dictionary of engine 1's `add_filter`. -/
def opMap1 : List (String × String) :=
  [("eq", "$eq"), ("ne", "$ne"), ("gt", "$gt"), ("gte", "$gte"),
   ("lt", "$lt"), ("lte", "$lte"), ("in", "$in"), ("nin", "$nin"),
   ("exists", "$exists"), ("type", "$type"), ("all", "$all"), ("size", "$size")]

/-- `self._filter.setdefault(field, {})[k] = v`: update the field's
sub-document in place, creating it (at the end of the dict) if absent. -/
def setdefaultSet (f : List (String × List (String × Value)))
    (field k : String) (v : Value) : List (String × List (String × Value)) :=
  match getKey f field with
  | some m => setKey f field (setKey m k v)
  | none => f ++ [(field, [(k, v)])]

/-- `MongoQueryBuilder.add_filter` (engine 1): `regex` expects a dict-shaped
value (`value.get("pattern", "")`, optional `"options"`); any operator in
`op_map` merges its native key into the field's sub-document via
`setdefault`; anything else raises `ValueError` (the source message is in
Hebrew; an English rendering is used here). -/
def Builder1.addFilter (b : Builder1) (field op : String) (value : Value) :
    Except String Builder1 :=
  if op == "regex" then
    match value with
    | .pdoc d =>
        let pat : Value := .prim ((getKey d "pattern").getD (.str ""))
        let f := setdefaultSet b.filter field "$regex" pat
        let f := match getKey d "options" with
          | some o => setdefaultSet f field "$options" (.prim o)
          | none => f
        .ok { b with filter := f }
    | _ => .error "AttributeError: value has no attribute get"
  else
    match getKey opMap1 op with
    | some nativeKey =>
        .ok { b with filter := setdefaultSet b.filter field nativeKey value }
    | none => .error ("Unsupported operator: " ++ op)

/-- `MongoQueryBuilder.add_elem_match` (engine 1). -/
def Builder1.addElemMatch (b : Builder1) (field : String)
    (criteria : List (String × Prim)) : Builder1 :=
  { b with filter := setdefaultSet b.filter field "$elemMatch" (.pdoc criteria) }

/-- `MongoQueryBuilder.add_or_condition` (engine 1): extend the `$or` list
if present, otherwise set it to the given conditions. -/
def Builder1.addOrCondition (b : Builder1) (conditions : List SubFilter) :
    Builder1 :=
  match b.orConds with
  | some l => { b with orConds := some (l ++ conditions) }
  | none => { b with orConds := some conditions }

/-- `MongoQueryBuilder.set_sort` (engine 1): direction is already a pymongo
int (`1` / `-1`); appended to the sort list. -/
def Builder1.setSort (b : Builder1) (field : String) (direction : Int) :
    Builder1 :=
  { b with sort := some ((b.sort.getD []) ++ [(field, direction)]) }

/-- `MongoQueryBuilder.set_limit` (engine 1). -/
def Builder1.setLimit (b : Builder1) (count : Int) : Builder1 :=
  { b with limit := some count }

/-- `MongoQueryBuilder.set_skip` (engine 1). -/
def Builder1.setSkip (b : Builder1) (count : Int) : Builder1 :=
  { b with skip := some count }

/-- Does this document satisfy engine 1's accumulated filter? -/
def Builder1.matches (b : Builder1) (d : Doc) : Bool :=
  matchesFilter (b.filter.map fun fm => (fm.1, Clause.ops fm.2)) b.orConds d

/-- `MongoQueryBuilder.execute` (engine 1): `find(filter)`, then `sort` /
`skip` / `limit` each applied only when truthy, then
`cursor.to_list(length=self._limit)`.  Unlike engine 2, the documents are
returned as-is: there is **no** `_id`-to-string conversion here. -/
def Builder1.execute (b : Builder1) (collection : List Doc) : List Doc :=
  let filtered := collection.filter b.matches
  let sorted :=
    match b.sort with
    | some sp => if sp.isEmpty then filtered else sortDocs sp filtered
    | none => filtered
  let skipped :=
    match b.skip with
    | some n => if n == 0 then sorted else sorted.drop n.toNat
    | none => sorted
  match b.limit with
  | some n => if n == 0 then skipped else skipped.take n.natAbs
  | none => skipped

/-! ## sal_1 filter builder
(`sal_1/dal.py`, `GenericDataLoader._build_mongodb_filter`, with the
`FilterOperator` enum and `FilterCondition` model of `sal_1/models.py`). -/

/-- `models.FilterOperator` (sal_1). -/
inductive FilterOperator where
  | equals | notEquals | greaterThan | greaterEqual | lessThan | lessEqual
  | contains | startsWith | endsWith
  | inList | notIn | regex | exists | size
  deriving DecidableEq, Repr

/-- `models.FilterCondition` (sal_1): `case_sensitive` defaults to `False`. -/
structure FilterCondition where
  field : String
  op : FilterOperator
  value : Value
  caseSensitive : Bool := false
  deriving Repr

/-- `str(value)` as used when building regex patterns (the request model
restricts the value to scalars or lists; only strings occur on the text
operators in practice). -/
def pyStr (v : Value) : String := pyStrOfValue v

/-- `value if isinstance(value, list) else [value]`. -/
def asList (v : Value) : Value :=
  match v with
  | .arr l => .arr l
  | .prim p => .arr [p]
  | .pdoc _ => .arr []

/-- Python `bool(value)` on a scalar query value. -/
def pyBool (v : Value) : Bool :=
  match v with
  | .prim .null => false
  | .prim (.bool b) => b
  | .prim (.num q) => q ≠ 0
  | .prim (.str s) => s ≠ ""
  | .prim (.oid _) => true
  | .arr l => !l.isEmpty
  | .pdoc d => !d.isEmpty

/-- Python `int(value)` on a numeric query value (modelled for numbers). -/
def pyInt (v : Value) : Value :=
  match v with
  | .prim (.num q) => .prim (.num (q.floor : ℚ))
  | .prim (.bool b) => .prim (.num (cond b 1 0))
  | w => w

/-- The `field_query` sub-document `_build_mongodb_filter` builds for one
condition (empty for `equals`, which is set directly, and in no other case
for this closed enum).  Key order follows the assignment order in the
source. -/
def fieldQuery (fc : FilterCondition) : List (String × Value) :=
  match fc.op with
  | .equals => []
  | .notEquals => [("$ne", fc.value)]
  | .greaterThan => [("$gt", fc.value)]
  | .greaterEqual => [("$gte", fc.value)]
  | .lessThan => [("$lt", fc.value)]
  | .lessEqual => [("$lte", fc.value)]
  | .contains =>
      let pat : Value := .prim (.str (escapeRe (pyStr fc.value)))
      if fc.caseSensitive then [("$regex", pat)]
      else [("$regex", pat), ("$options", .prim (.str "i"))]
  | .startsWith =>
      let pat : Value := .prim (.str ("^" ++ escapeRe (pyStr fc.value)))
      if fc.caseSensitive then [("$regex", pat)]
      else [("$regex", pat), ("$options", .prim (.str "i"))]
  | .endsWith =>
      let pat : Value := .prim (.str (escapeRe (pyStr fc.value) ++ "$"))
      if fc.caseSensitive then [("$regex", pat)]
      else [("$regex", pat), ("$options", .prim (.str "i"))]
  | .inList => [("$in", asList fc.value)]
  | .notIn => [("$nin", asList fc.value)]
  | .regex =>
      let pat : Value := .prim (.str (pyStr fc.value))
      if fc.caseSensitive then [("$regex", pat)]
      else [("$regex", pat), ("$options", .prim (.str "i"))]
  | .exists => [("$exists", .prim (.bool (pyBool fc.value)))]
  | .size => [("$size", pyInt fc.value)]

/-- One iteration of `_build_mongodb_filter`'s loop: `equals` assigns the
field directly (replacing any accumulated clause); otherwise a non-empty
`field_query` is merged — `dict.update` on an existing sub-document, a
`{"$eq": old, **field_query}` rebuild when the field held a plain value. -/
def buildFilterStep (query : SubFilter) (fc : FilterCondition) : SubFilter :=
  match fc.op with
  | .equals => setKey query fc.field (.direct fc.value)
  | _ =>
      let fq := fieldQuery fc
      if fq.isEmpty then query
      else
        match getKey query fc.field with
        | some (.ops m) => setKey query fc.field (.ops (fq.foldl (fun acc kv => setKey acc kv.1 kv.2) m))
        | some (.direct v) => setKey query fc.field (.ops (fq.foldl (fun acc kv => setKey acc kv.1 kv.2) [("$eq", v)]))
        | none => setKey query fc.field (.ops fq)

/-- `GenericDataLoader._build_mongodb_filter` (sal_1). -/
def buildMongoFilter (filters : List FilterCondition) : SubFilter :=
  filters.foldl buildFilterStep []

/-! ## Sales-by-region analysis, typed model
(`analytics-engine_2/app/services/analysis_services/sales_by_region.py`)

The two execution strategies of `SalesByRegionService` are embedded over
typed rows (a `region` string and a numeric `sales_amount`, the two columns
the service uses).  Python/pandas floats are modelled as exact rationals.
`round(x, 2)` (and Mongo's `$round: [x, 2]`) is modelled as rounding
half-up on exact rationals; the half-even tie behaviour of the originals
differs only at exact half-cent ties, which none of the theorems below
exercise. -/

structure SalesRow where
  region : String
  sales_amount : ℚ
  deriving DecidableEq, Repr

/-- Rounding to two decimal places. -/
def round2 (q : ℚ) : ℚ := ((⌊q * 100 + 1/2⌋ : ℤ) : ℚ) / 100

/-- Lexicographic code-point comparison of character lists (the order
Python/pandas uses on strings). -/
def charsLe : List Char → List Char → Bool
  | [], _ => true
  | _ :: _, [] => false
  | c :: cs, d :: ds =>
      if c.val < d.val then true
      else if d.val < c.val then false
      else charsLe cs ds

/-- `a ≤ b` on strings by code points. -/
def strLe (a b : String) : Bool := charsLe a.data b.data

/-- The distinct elements of a list in order of first appearance. -/
def firstDedupGo (seen : List String) : List String → List String
  | [] => []
  | a :: l => if seen.contains a then firstDedupGo seen l
              else a :: firstDedupGo (a :: seen) l

/-- The distinct elements of a list in order of first appearance.  Models
the (unspecified) group order of a MongoDB `$group` stage. -/
def firstDedup (l : List String) : List String := firstDedupGo [] l

/-- The `sales_amount` values of the rows of region `r`. -/
def amountsFor (D : List SalesRow) (r : String) : List ℚ :=
  (D.filter fun x => x.region == r).map SalesRow.sales_amount

/-- Exact per-region sum of `sales_amount`. -/
def regionSum (D : List SalesRow) (r : String) : ℚ := (amountsFor D r).sum

/-- Per-region row count. -/
def regionCount (D : List SalesRow) (r : String) : ℕ := (amountsFor D r).length

/-- Minimum of a list of rationals (`0` for the empty list, which does not
occur for a region that appears in the data). -/
def qListMin : List ℚ → ℚ
  | [] => 0
  | x :: l => l.foldl min x

/-- Maximum of a list of rationals. -/
def qListMax : List ℚ → ℚ
  | [] => 0
  | x :: l => l.foldl max x

/-- `data['sales_amount'].sum()`. -/
def totalSales (D : List SalesRow) : ℚ := (D.map SalesRow.sales_amount).sum

/-- The grouping keys of `data.groupby('region')`: the distinct regions,
which pandas returns in sorted order. -/
def pandasRegions (D : List SalesRow) : List String :=
  List.insertionSort (fun a b => strLe a b = true) (firstDedup (D.map SalesRow.region))

/-- One record of the in-memory result's `by_region` list, with the
flattened `'_'.join(col)` column names. -/
structure RegionRecord where
  region : String
  sales_amount_sum : ℚ
  sales_amount_mean : ℚ
  sales_amount_count : ℕ
  sales_amount_min : ℚ
  sales_amount_max : ℚ
  percentage_of_total : ℚ
  deriving DecidableEq, Repr

/-- The aggregated (and `.round(2)`-ed) record of one region in the
in-memory strategy; `percentage_of_total` divides the *rounded* sum by the
exact grand total. -/
def mkRegionRecord (D : List SalesRow) (r : String) : RegionRecord :=
  let s := regionSum D r
  { region := r
    sales_amount_sum := round2 s
    sales_amount_mean := round2 (s / regionCount D r)
    sales_amount_count := regionCount D r
    sales_amount_min := round2 (qListMin (amountsFor D r))
    sales_amount_max := round2 (qListMax (amountsFor D r))
    percentage_of_total := round2 (round2 s / totalSales D * 100) }

/-- `analysis.sort_values('sales_amount_sum', ascending=False)`
(insertion = stable, like pandas' stable sorts; ties only matter to the
theorems below when explicitly excluded). -/
def sortRecordsDesc (l : List RegionRecord) : List RegionRecord :=
  List.insertionSort (fun a b => b.sales_amount_sum ≤ a.sales_amount_sum) l

/-- The `summary` object common to both strategies. -/
structure SalesSummary where
  total_sales : ℚ
  total_regions : ℕ
  average_per_region : ℚ
  deriving DecidableEq, Repr

/-- The full in-memory result shape. -/
structure PandasSalesResult where
  summary : SalesSummary
  by_region : List RegionRecord
  top_region : Option RegionRecord
  bottom_region : Option RegionRecord
  deriving DecidableEq, Repr

/-- Outcome of `analyze_with_pandas`: the required-column check fails (on
the empty frame, whose column set is empty) or the analysis result. -/
inductive PandasOut where
  | missingColumns
  | ok (r : PandasSalesResult)
  deriving DecidableEq, Repr

/-- `SalesByRegionService.analyze_with_pandas` on typed rows.  A non-empty
typed dataset always has both required columns; the empty one has neither. -/
def analyzeWithPandasSales (D : List SalesRow) : PandasOut :=
  if D.isEmpty then .missingColumns
  else
    let recs := sortRecordsDesc ((pandasRegions D).map (mkRegionRecord D))
    let total := totalSales D
    let n := (pandasRegions D).length
    .ok
      { summary :=
          { total_sales := round2 total
            total_regions := n
            average_per_region := if 0 < n then round2 (total / n) else 0 }
        by_region := recs
        top_region := recs.head?
        bottom_region := recs.getLast? }

/-- Output row of the pipeline's first `$group` stage (exact values). -/
structure SalesGroupRow where
  _id : String
  total_sales : ℚ
  average_sales : ℚ
  count : ℕ
  min_sale : ℚ
  max_sale : ℚ
  deriving DecidableEq, Repr

/-- The first `$group` stage of `build_aggregation_pipeline`, grouping by
`$region` with `$sum`/`$avg`/count/`$min`/`$max`.  MongoDB leaves the group
order unspecified; it is modelled as order of first appearance. -/
def salesGroupStage (D : List SalesRow) : List SalesGroupRow :=
  (firstDedup (D.map SalesRow.region)).map fun r =>
    { _id := r
      total_sales := regionSum D r
      average_sales := regionSum D r / regionCount D r
      count := regionCount D r
      min_sale := qListMin (amountsFor D r)
      max_sale := qListMax (amountsFor D r) }

/-- One row of the pipeline output after `$unwind` + `$project`: sum and
average are `$round`-ed to 2 digits, `min_sale`/`max_sale` are passed
through unrounded, and the percentage divides the *exact* region total by
the grand total (the sum of the exact region totals pushed by the second
`$group`). -/
structure PipeRegionRecord where
  region : String
  total_sales : ℚ
  average_sales : ℚ
  count : ℕ
  min_sale : ℚ
  max_sale : ℚ
  percentage_of_total : ℚ
  deriving DecidableEq, Repr

/-- The second `$group` (grand total over the pushed region rows), the
`$unwind`, and the `$project` stage. -/
def salesProjectStage (D : List SalesRow) : List PipeRegionRecord :=
  let groups := salesGroupStage D
  let grand := (groups.map SalesGroupRow.total_sales).sum
  groups.map fun g =>
    { region := g._id
      total_sales := round2 g.total_sales
      average_sales := round2 g.average_sales
      count := g.count
      min_sale := g.min_sale
      max_sale := g.max_sale
      percentage_of_total := round2 (g.total_sales / grand * 100) }

/-- The final `$sort: {total_sales: -1}` stage (modelled as a stable sort on
the already-rounded totals). -/
def salesSortStage (l : List PipeRegionRecord) : List PipeRegionRecord :=
  List.insertionSort (fun a b => b.total_sales ≤ a.total_sales) l

/-- Rows produced by executing the full aggregation pipeline built from an
empty base filter (i.e. the filter matching exactly the dataset `D`). -/
def salesPipelineRows (D : List SalesRow) : List PipeRegionRecord :=
  salesSortStage (salesProjectStage D)

/-- Outcome of `post_process_aggregation`: the "No data found" marker or
the normalized result shape. -/
inductive AggSalesOut where
  | noData
  | ok (summary : SalesSummary) (by_region : List PipeRegionRecord)
      (top_region bottom_region : Option PipeRegionRecord)
  deriving DecidableEq, Repr

/-- `SalesByRegionService.post_process_aggregation`: summary totals are
computed from the **already rounded** per-region `total_sales` column of
the pipeline output. -/
def postProcessSales (rows : List PipeRegionRecord) : AggSalesOut :=
  if rows.isEmpty then .noData
  else
    let total := (rows.map PipeRegionRecord.total_sales).sum
    let n := rows.length
    .ok
      { total_sales := round2 total
        total_regions := n
        average_per_region := if 0 < n then round2 (total / n) else 0 }
      rows rows.head? rows.getLast?

/-! Thin projections used to compare the two strategies. -/

/-- Summary of the in-memory strategy (`none` on the missing-column path). -/
def pandasSummary (D : List SalesRow) : Option SalesSummary :=
  match analyzeWithPandasSales D with
  | .ok r => some r.summary
  | .missingColumns => none

/-- Grouping keys of the in-memory strategy's `by_region` list. -/
def pandasRegionNames (D : List SalesRow) : List String :=
  match analyzeWithPandasSales D with
  | .ok r => r.by_region.map RegionRecord.region
  | .missingColumns => []

/-- Top / bottom region names of the in-memory strategy. -/
def pandasTopName (D : List SalesRow) : Option String :=
  match analyzeWithPandasSales D with
  | .ok r => r.top_region.map RegionRecord.region
  | .missingColumns => none

def pandasBottomName (D : List SalesRow) : Option String :=
  match analyzeWithPandasSales D with
  | .ok r => r.bottom_region.map RegionRecord.region
  | .missingColumns => none

/-- The pushed-down strategy end-to-end on dataset `D`. -/
def aggSales (D : List SalesRow) : AggSalesOut :=
  postProcessSales (salesPipelineRows D)

/-- Summary of the pushed-down strategy. -/
def pipeSummary (D : List SalesRow) : Option SalesSummary :=
  match aggSales D with
  | .ok s _ _ _ => some s
  | .noData => none

/-- Grouping keys of the pushed-down strategy's `by_region` list. -/
def pipeRegionNames (D : List SalesRow) : List String :=
  match aggSales D with
  | .ok _ l _ _ => l.map PipeRegionRecord.region
  | .noData => []

/-- Top / bottom region names of the pushed-down strategy. -/
def pipeTopName (D : List SalesRow) : Option String :=
  match aggSales D with
  | .ok _ _ t _ => t.map PipeRegionRecord.region
  | .noData => none

def pipeBottomName (D : List SalesRow) : Option String :=
  match aggSales D with
  | .ok _ _ _ b => b.map PipeRegionRecord.region
  | .noData => none

/-! ## Analysis results as JSON-like values

The payloads the services and pipeline managers pass around are arbitrary
Python dicts/lists; they are modelled as a recursive JSON-like type. -/

inductive JValue where
  | null
  | bool (b : Bool)
  | num (q : ℚ)
  | str (s : String)
  | arr (l : List JValue)
  | obj (fields : List (String × JValue))

/-- Embed a primitive BSON value into a result payload. -/
def jOfPrim : Prim → JValue
  | .null => .null
  | .bool b => .bool b
  | .num q => .num q
  | .str s => .str s
  | .oid h => .str h

/-- Embed a BSON value into a result payload. -/
def jOfValue : Value → JValue
  | .prim p => jOfPrim p
  | .arr l => .arr (l.map jOfPrim)
  | .pdoc d => .obj (d.map fun kv => (kv.1, jOfPrim kv.2))

/-- Python truthiness of a payload value. -/
def jTruthy : JValue → Bool
  | .null => false
  | .bool b => b
  | .num q => decide (q ≠ 0)
  | .str s => !s.isEmpty
  | .arr l => !l.isEmpty
  | .obj d => !d.isEmpty

/-- `{"error": msg}` — the structured per-analysis error payload. -/
def errObj (msg : String) : JValue := .obj [("error", .str msg)]

/-! ## Engine 2 analysis services and pipeline manager
(`analytics-engine_2/app/services/base_service.py`,
 `analysis_services/__init__.py`, `pipeline_manager.py`)

An analysis service is its name plus its two strategy entry points.
`analyze_with_pandas` may raise (pandas computation errors), modelled with
`Except`.  Wall-clock duration bookkeeping (`time.time()`) is real time and
is not modelled. -/

structure Service2 where
  name : String
  analyzeWithPandas : List Doc → Except String JValue
  /-- `post_process_aggregation`; the base-class default is
  `df.to_dict('records')`, i.e. the rows unchanged. -/
  postProcessAggregation : List JValue → JValue := fun rows => .arr rows

/-- `{"message": "No data to analyze", "result": []}`. -/
def noDataMarker2 : JValue :=
  .obj [("message", .str "No data to analyze"), ("result", .arr [])]

/-- `{"message": "No data found", "result": []}` (aggregation path). -/
def noDataFoundMarker2 : JValue :=
  .obj [("message", .str "No data found"), ("result", .arr [])]

/-- `AbstractAnalysisService.process` (engine 2).  The aggregation
round-trip (`build_aggregation_pipeline` + MongoDB execution + DataFrame
construction) is represented by the `agg` argument: `none` models a missing
`query_builder` (falling through to the pandas branch, as the
`use_aggregation and query_builder` guard does), `some r` models the rows
(or exception) the pipeline execution produced.  The surrounding
`try/except` converts any exception into `{"error": str(e)}`. -/
def Service2.process (s : Service2) (data : List Doc) (useAgg : Bool)
    (agg : Option (Except String (List JValue))) : JValue :=
  match useAgg, agg with
  | true, some (.error e) => errObj e
  | true, some (.ok []) => noDataFoundMarker2
  | true, some (.ok rows) => s.postProcessAggregation rows
  | _, _ =>
      if data.isEmpty then noDataMarker2
      else
        match s.analyzeWithPandas data with
        | .error e => errObj e
        | .ok v => v

/-- Does any document have this column (pandas: a key present in at least
one record makes it a DataFrame column)? -/
def hasCol (docs : List Doc) (c : String) : Bool := docs.any fun d => hasKey d c

/-- The DataFrame's column list (first-appearance order of the keys). -/
def docColumns (docs : List Doc) : List String :=
  firstDedup (docs.flatMap fun d => d.map Prod.fst)

/-- Numeric view of a field (`pd.to_numeric(..., errors='coerce').fillna(0)`;
numeric strings are not modelled and coerce to `0` like other non-numbers). -/
def numOf (v : Option Value) : ℚ :=
  match v with
  | some (.prim (.num q)) => q
  | some (.prim (.bool b)) => cond b 1 0
  | _ => 0

/-- Grouping key of a document under a column (pandas uses the raw value;
rows whose key is missing are dropped by `groupby` before this is used). -/
def keyString (v : Value) : String := pyStrOfValue v

/-- Serialize the typed in-memory sales result into a payload. -/
def jOfRegionRecord (r : RegionRecord) : JValue :=
  .obj [("region", .str r.region),
        ("sales_amount_sum", .num r.sales_amount_sum),
        ("sales_amount_mean", .num r.sales_amount_mean),
        ("sales_amount_count", .num r.sales_amount_count),
        ("sales_amount_min", .num r.sales_amount_min),
        ("sales_amount_max", .num r.sales_amount_max),
        ("percentage_of_total", .num r.percentage_of_total)]

def jOfSalesSummary (s : SalesSummary) : JValue :=
  .obj [("total_sales", .num s.total_sales),
        ("total_regions", .num s.total_regions),
        ("average_per_region", .num s.average_per_region)]

def jOfPandasSales : PandasOut → JValue
  | .missingColumns =>
      .obj [("error", .str "Missing required columns. Required: ['region', 'sales_amount']"),
            ("available_columns", .arr [])]
  | .ok r =>
      .obj [("summary", jOfSalesSummary r.summary),
            ("by_region", .arr (r.by_region.map jOfRegionRecord)),
            ("top_region", (r.top_region.map jOfRegionRecord).getD .null),
            ("bottom_region", (r.bottom_region.map jOfRegionRecord).getD .null)]

/-- Typed rows extracted from raw documents for the sales analysis: the
`region` key (rows without it are dropped by `groupby`) and the coerced
`sales_amount`. -/
def salesRowsOfDocs (docs : List Doc) : List SalesRow :=
  docs.filterMap fun d =>
    match getKey d "region" with
    | some rv => some ⟨keyString rv, numOf (getKey d "sales_amount")⟩
    | none => none

/-- `SalesByRegionService.analyze_with_pandas` on raw documents: the
required-column check returns (not raises) an error payload; otherwise the
typed analysis runs.  (Corner not modelled: documents where the `region`
column exists but every value is missing.) -/
def salesAnalyze2 (docs : List Doc) : Except String JValue :=
  if hasCol docs "region" && hasCol docs "sales_amount" then
    .ok (jOfPandasSales (analyzeWithPandasSales (salesRowsOfDocs docs)))
  else
    .ok (.obj [("error", .str "Missing required columns. Required: ['region', 'sales_amount']"),
               ("available_columns", .arr ((docColumns docs).map JValue.str))])

/-- `SalesByRegionService.post_process_aggregation` at the payload level
(the pipeline rows arrive as documents with a rounded `total_sales`
column). -/
def salesPostProcess2 (rows : List JValue) : JValue :=
  if rows.isEmpty then noDataFoundMarker2
  else
    let totals := rows.map fun r =>
      match r with
      | .obj d => match getKey d "total_sales" with
                  | some (.num q) => q
                  | _ => 0
      | _ => 0
    let total := totals.sum
    let n := rows.length
    .obj [("summary", .obj
            [("total_sales", .num (round2 total)),
             ("total_regions", .num n),
             ("average_per_region", .num (if 0 < n then round2 (total / n) else 0))]),
          ("by_region", .arr rows),
          ("top_region", (rows.head?).getD .null),
          ("bottom_region", (rows.getLast?).getD .null)]

/-- The `sales_by_region` service (engine 2). -/
def salesService2 : Service2 :=
  { name := "sales_by_region"
    analyzeWithPandas := salesAnalyze2
    postProcessAggregation := salesPostProcess2 }

/-- `UserActivitySummaryService.analyze_with_pandas`, modelled to the depth
the registry-level claims need: the required-column check and the `summary`
block.  The time-bucketed sections (hourly/weekly/daily distributions,
trends) build on pandas datetime machinery and are not load-bearing for any
claim; they are elided here. -/
def uaAnalyze2 (docs : List Doc) : Except String JValue :=
  if hasCol docs "user_id" && hasCol docs "action_type" && hasCol docs "timestamp" then
    let users := firstDedup (docs.filterMap fun d => (getKey d "user_id").map keyString)
    let actions := firstDedup (docs.filterMap fun d => (getKey d "action_type").map keyString)
    let totalActions : ℚ := docs.length
    .ok (.obj [("summary", .obj
          [("total_users", .num users.length),
           ("total_actions", .num totalActions),
           ("average_actions_per_user",
             .num (if 0 < users.length then round2 (totalActions / users.length) else 0)),
           ("unique_action_types", .num actions.length)])])
  else
    .ok (.obj [("error", .str "Missing required columns. Required: ['user_id', 'action_type', 'timestamp']"),
               ("available_columns", .arr ((docColumns docs).map JValue.str))])

/-- The `user_activity_summary` service (engine 2); its facet-based
`post_process_aggregation` is likewise modelled only as far as the empty
check (no claim exercises its body). -/
def uaService2 : Service2 :=
  { name := "user_activity_summary"
    analyzeWithPandas := uaAnalyze2
    postProcessAggregation := fun rows =>
      if rows.isEmpty then noDataFoundMarker2 else .obj [("summary", (rows.headD .null))] }

/-- `AVAILABLE_SERVICES` and `get_service` (engine 2). -/
def availableServices2 : List (String × Service2) :=
  [("sales_by_region", salesService2), ("user_activity_summary", uaService2)]

def getService2 (name : String) : Option Service2 := getKey availableServices2 name

/-- The per-analysis result entry `PipelineManager.execute_analyses` stores
for one requested name: a not-found error object for an unregistered name,
otherwise the outcome of `service.process` (which already converts its own
exceptions; the orchestrator's own `except` clause is modelled by the same
total function). -/
def analysisEntry2 (reg : String → Option Service2) (rawData : List Doc)
    (useAgg : Bool) (aggOf : String → Option (Except String (List JValue)))
    (name : String) : JValue :=
  match reg name with
  | none => errObj ("Analysis service '" ++ name ++ "' not found")
  | some s => s.process rawData useAgg (aggOf name)

/-- The loop of `PipelineManager.execute_analyses` (engine 2), accumulating
the `results` dict.  The module-level `get_service` lookup is passed in as
`reg` (instantiated with `getService2`); per-analysis wall-clock timings
are not modelled. -/
def executeAnalyses2Go (reg : String → Option Service2) (rawData : List Doc)
    (useAgg : Bool) (aggOf : String → Option (Except String (List JValue))) :
    List String → List (String × JValue) → List (String × JValue)
  | [], results => results
  | name :: rest, results =>
      executeAnalyses2Go reg rawData useAgg aggOf rest
        (setKey results name (analysisEntry2 reg rawData useAgg aggOf name))

/-- `PipelineManager.execute_analyses` (engine 2): the `results` component
of the returned dict. -/
def executeAnalyses2 (reg : String → Option Service2) (rawData : List Doc)
    (useAgg : Bool) (aggOf : String → Option (Except String (List JValue)))
    (analysisNames : List String) : List (String × JValue) :=
  executeAnalyses2Go reg rawData useAgg aggOf analysisNames []

/-! ## Engine 1 analysis services and pipeline manager
(`analytics_engine_1/app/processing/...`) -/

/-- The three registered service classes of `AVAILABLE_SERVICES`
(engine 1). -/
inductive ServiceKind1 where
  | salesByRegion
  | userActivitySummary
  | groupAndAggregate
  deriving DecidableEq, Repr

/-- The `FETCH_DATA_FIRST` class attribute. -/
def fetchDataFirst : ServiceKind1 → Bool
  | .salesByRegion => true
  | .userActivitySummary => false
  | .groupAndAggregate => true

/-- `AVAILABLE_SERVICES` (engine 1). -/
def availableServices1 : List (String × ServiceKind1) :=
  [("sales_by_region", .salesByRegion),
   ("user_activity_summary", .userActivitySummary),
   ("group_and_aggregate", .groupAndAggregate)]

/-- Lexicographic order on grouping keys, modelling pandas' sorted group
keys (within one BSON type the natural order, across types by type rank —
pandas would raise on incomparable mixed keys, which is not modelled). -/
def valueLe (a b : Value) : Bool :=
  match a, b with
  | .prim p, .prim q => primCmp p q ≠ .gt
  | .prim _, _ => true
  | _, .prim _ => false
  | _, _ => true

/-- `SalesByRegionService.process` (engine 1): empty data returns the
marker; a missing `sales_amount`/`units_sold` column raises `KeyError` at
the `to_numeric` assignment; a missing `region` column returns an error
payload; otherwise a `groupby('region')` with named aggregations, returned
as a bare record list. -/
def salesProcess1 (data : List Doc) : Except String JValue :=
  if data.isEmpty then
    .ok (.obj [("summary", .str "No data provided for analysis.")])
  else if !hasCol data "sales_amount" then .error "KeyError: 'sales_amount'"
  else if !hasCol data "units_sold" then .error "KeyError: 'units_sold'"
  else if !hasCol data "region" then
    .ok (.obj [("error", .str "Field 'region' not found in data.")])
  else
    let rows := data.filterMap fun d => (getKey d "region").map fun rv => (rv, d)
    let keys := List.insertionSort (fun a b => valueLe a b = true)
      (rows.map (fun rd => rd.1)).eraseDups
    .ok (.arr (keys.map fun k =>
      let grp := (rows.filter fun rd => rd.1 == k).map Prod.snd
      let sales := grp.map fun d => numOf (getKey d "sales_amount")
      let units := grp.map fun d => numOf (getKey d "units_sold")
      .obj [("region", jOfValue k),
            ("total_sales", .num sales.sum),
            ("average_sales", .num (sales.sum / sales.length)),
            ("total_units", .num units.sum),
            ("transaction_count", .num grp.length)]))

/-- `UserActivitySummaryService.process` (engine 1): requires a query
builder; builds a `$group`-by-`user_id` pipeline (optionally `$match`-ed by
the accumulated base filter) and returns the raw aggregation rows sorted by
descending `event_count`.  The `$group` order is modelled as first
appearance, `$addToSet` as first-appearance dedup. -/
def uaProcess1 (queryBuilder : Option Builder1) (collection : List Doc) :
    Except String JValue :=
  match queryBuilder with
  | none => .error "UserActivitySummaryService requires a query_builder instance."
  | some qb =>
      let docs := if qb.filter.isEmpty then collection
                  else collection.filter qb.matches
      let users := (docs.filterMap fun d => getKey d "user_id").eraseDups
      let recs := users.map fun u =>
        let evts := docs.filter fun d => getKey d "user_id" == some u
        (evts.length, JValue.obj
          [("_id", jOfValue u),
           ("event_count", .num evts.length),
           ("event_types", .arr ((evts.filterMap fun d => getKey d "event_type").eraseDups.map jOfValue))])
      .ok (.arr ((List.insertionSort (fun a b => b.1 ≤ a.1) recs).map Prod.snd))

/-- One aggregation operation of the generic grouping service. -/
def applyAggOp (op : String) (vals : List ℚ) : Option ℚ :=
  if op == "sum" then some vals.sum
  else if op == "mean" then some (vals.sum / vals.length)
  else if op == "count" then some vals.length
  else if op == "min" then some (qListMin vals)
  else if op == "max" then some (qListMax vals)
  else none  -- an unknown pandas aggregation raises

/-- `GroupingService.process` (engine 1).  Parameter validation runs
*before* the empty-data check: missing/falsy or mis-typed params raise
`ValueError` even for zero rows.  The group keys are the distinct
tuples of group-column values (rows with a missing group key are dropped by
pandas), sorted; aggregation results are flattened to `"col_op"` names. -/
def groupingProcess1 (data : List Doc) (params : List (String × JValue)) :
    Except String JValue :=
  let gbc := getKey params "group_by_columns"
  let aggs := getKey params "aggregations"
  if !(gbc.map jTruthy).getD false || !(aggs.map jTruthy).getD false then
    .error "GroupingService requires 'group_by_columns' (list) and 'aggregations' (dict) in params."
  else
    match gbc, aggs with
    | some (.arr cols), some (.obj aggMap) =>
        if data.isEmpty then .ok (.obj [("summary", .str "No data for analysis.")])
        else
          let colNames := cols.filterMap fun c =>
            match c with | .str s => some s | _ => none
          let aggCols := aggMap.map Prod.fst
          if (colNames ++ aggCols).any fun c => !hasCol data c then
            .error "One of the specified columns does not exist in the data"
          else
            let keyOf := fun (d : Doc) => colNames.map fun c => getKey d c
            let rows := data.filter fun d => (keyOf d).all Option.isSome
            let keys := (rows.map keyOf).eraseDups
            let recs := keys.map fun k =>
              let grp := rows.filter fun d => keyOf d == k
              let keyFields := colNames.zip (k.map fun v => jOfValue (v.getD (.prim .null)))
              let aggFields := aggMap.flatMap fun ca =>
                let vals := grp.map fun d => numOf (getKey d ca.1)
                (match ca.2 with
                 | .arr ops => ops.filterMap fun o =>
                     match o with
                     | .str op => (applyAggOp op vals).map fun q =>
                         (ca.1 ++ "_" ++ op, JValue.num q)
                     | _ => none
                 | _ => [])
              JValue.obj (keyFields ++ aggFields)
            .ok (.arr recs)
    | _, _ =>
        .error "'group_by_columns' must be a list and 'aggregations' must be a dictionary."

/-- `SearchCriteria` of engine 1's request model (`api/models.py`), with its
pydantic defaults (`limit=100`, `skip=0`).  Each entry of `or_conditions`
is handed to `add_or_condition` as one group of condition documents. -/
structure Criteria1 where
  filters : List (String × String × Value) := []
  orConditions : List (List SubFilter) := []
  sort : List (String × Int) := []
  limit : Int := 100
  skip : Int := 0
  deriving Repr

/-- `PipelineManager._build_base_query` (engine 1); `add_filter` may raise
on an unsupported operator, which propagates out of `run_pipeline`. -/
def buildBaseQuery1 (criteria : Criteria1) : Except String Builder1 :=
  let init : Except String Builder1 := .ok {}
  let withFilters := criteria.filters.foldl
    (fun acc f => acc.bind fun b => b.addFilter f.1 f.2.1 f.2.2) init
  withFilters.map fun b =>
    let b := criteria.orConditions.foldl (fun b g => b.addOrCondition g) b
    let b := criteria.sort.foldl (fun b s => b.setSort s.1 s.2) b
    (b.setSkip criteria.skip).setLimit criteria.limit

/-- The resolution loop of `PipelineManager.run_pipeline` (engine 1): look
every requested name up in `AVAILABLE_SERVICES` and raise `ValueError` on
the first unknown one, before anything executes (the source message is
Hebrew; an English rendering is used). -/
def resolveServices1 (requested : List (String × List (String × JValue))) :
    Except String (List (String × List (String × JValue) × ServiceKind1)) :=
  match requested with
  | [] => .ok []
  | (name, params) :: rest =>
      match getKey availableServices1 name with
      | none => .error ("Analytics service named '" ++ name ++ "' was not found.")
      | some k => (resolveServices1 rest).map fun l => (name, params, k) :: l

/-- Dispatch of `service.process(...)` in engine 1's execution loop. -/
def runService1 (kind : ServiceKind1) (rawData : List Doc)
    (queryBuilder : Builder1) (params : List (String × JValue))
    (collection : List Doc) : Except String JValue :=
  match kind with
  | .salesByRegion => salesProcess1 rawData
  | .userActivitySummary => uaProcess1 (some queryBuilder) collection
  | .groupAndAggregate => groupingProcess1 rawData params

/-- The execution loop of `run_pipeline`: note there is **no** `try/except`
around `service.process`, so the first failing analysis propagates and the
remaining ones never run. -/
def runServices1 (rawData : List Doc) (queryBuilder : Builder1)
    (collection : List Doc)
    (services : List (String × List (String × JValue) × ServiceKind1))
    (results : List (String × JValue)) : Except String (List (String × JValue)) :=
  match services with
  | [] => .ok results
  | (name, params, kind) :: rest =>
      match runService1 kind rawData queryBuilder params collection with
      | .error e => .error e
      | .ok r => runServices1 rawData queryBuilder collection rest (setKey results name r)

/-- `PipelineManager.run_pipeline` (engine 1) over an in-memory collection:
resolve all names (aborting the whole batch on an unknown one), build the
base query, fetch raw rows once if any resolved service needs them, then
run the services in request order. -/
def runPipeline1 (collection : List Doc) (criteria : Criteria1)
    (requested : List (String × List (String × JValue))) :
    Except String (List (String × JValue)) :=
  match resolveServices1 requested with
  | .error e => .error e
  | .ok services =>
      match buildBaseQuery1 criteria with
      | .error e => .error e
      | .ok qb =>
          let needsRaw := services.any fun s => fetchDataFirst s.2.2
          let rawData := if needsRaw then qb.execute collection else []
          runServices1 rawData qb collection services []

/-- The first requested analysis name that is not registered, if any. -/
def firstUnknown1 (requested : List (String × List (String × JValue))) :
    Option String :=
  match requested with
  | [] => none
  | (name, _) :: rest =>
      if (getKey availableServices1 name).isSome then firstUnknown1 rest
      else some name

/-- Checker: if the document has an `_id` field, is it a plain string? -/
def idIsString (d : Doc) : Bool :=
  match getKey d "_id" with
  | none => true
  | some (.prim (.str _)) => true
  | some _ => false

/-- Do these params pass `GroupingService`'s validation (truthy
`group_by_columns` that is a list, truthy `aggregations` that is a dict)? -/
def validGroupingParams (params : List (String × JValue)) : Bool :=
  match getKey params "group_by_columns", getKey params "aggregations" with
  | some (.arr (_ :: _)), some (.obj (_ :: _)) => true
  | _, _ => false

/-- A service whose in-memory analysis raises (as e.g. a pandas type error
inside `analyze_with_pandas` would); used to exercise the orchestrator's
failure isolation. -/
def boomService : Service2 :=
  { name := "boom"
    analyzeWithPandas := fun _ => .error "TypeError: unsupported operand type(s)"
    postProcessAggregation := fun rows => .arr rows }

/-- The engine-2 registry extended with the failing service. -/
def regWithBoom : String → Option Service2 :=
  fun n => if n == "boom" then some boomService else getService2 n

/-- A one-document collection. -/
def oneRowData : List Doc := [[("x", .prim (.num 1))]]

/-- Well-formed params for the generic grouping service. -/
def groupingParamsOk : List (String × JValue) :=
  [("group_by_columns", .arr [.str "region"]),
   ("aggregations", .obj [("revenue", .arr [.str "sum"])])]

/-! # Theorems

Helper lemmas first (association lists, dedup, sorting, sums, regex
parsing), then one theorem per claim with its witness or counterexample. -/

section DictLemmas

variable {α : Type}

theorem getKey_setKey_self (d : List (String × α)) (k : String) (v : α) :
    getKey (setKey d k v) k = some v := by
  induction d with
  | nil => simp [setKey, getKey]
  | cons hd tl ih =>
      by_cases h : hd.1 = k
      · simp [setKey, getKey, h]
      · simp only [setKey, getKey]
        rw [if_neg (by simpa using h)]
        simpa [getKey, h] using ih

theorem getKey_setKey_ne (d : List (String × α)) (k k' : String) (v : α)
    (h : k' ≠ k) : getKey (setKey d k v) k' = getKey d k' := by
  induction d with
  | nil => simp [setKey, getKey, Ne.symm h]
  | cons hd tl ih =>
      by_cases hk : hd.1 = k
      · simp [setKey, getKey, hk, Ne.symm h]
      · simp [setKey, getKey, hk, ih]

theorem getKey_append (d₁ d₂ : List (String × α)) (k : String) :
    getKey (d₁ ++ d₂) k
      = match getKey d₁ k with
        | some v => some v
        | none => getKey d₂ k := by
  induction d₁ with
  | nil => simp [getKey]
  | cons hd tl ih =>
      by_cases hh : hd.1 = k
      · simp [getKey, hh]
      · simp [getKey, hh, ih]

theorem getKey_setdefaultSet_self (f : List (String × List (String × Value)))
    (field k : String) (v : Value) :
    getKey (setdefaultSet f field k v) field
      = some (setKey ((getKey f field).getD []) k v) := by
  unfold setdefaultSet
  cases hf : getKey f field with
  | some m => simp [getKey_setKey_self]
  | none =>
      rw [getKey_append]
      simp [hf, getKey, setKey]

theorem getKey_setdefaultSet_ne (f : List (String × List (String × Value)))
    (field k g : String) (v : Value) (h : g ≠ field) :
    getKey (setdefaultSet f field k v) g = getKey f g := by
  unfold setdefaultSet
  cases hf : getKey f field with
  | some m => exact getKey_setKey_ne _ _ _ _ h
  | none =>
      rw [getKey_append]
      cases hg : getKey f g with
      | some w => simp
      | none => simp [getKey, Ne.symm h]

theorem getKey_foldl_setKey_not_mem (fq : List (String × α))
    (m : List (String × α)) (k : String) (h : k ∉ fq.map Prod.fst) :
    getKey (fq.foldl (fun acc kv => setKey acc kv.1 kv.2) m) k = getKey m k := by
  induction fq generalizing m with
  | nil => rfl
  | cons hd tl ih =>
      simp only [List.map_cons, List.mem_cons] at h
      push_neg at h
      simp only [List.foldl_cons]
      rw [ih _ h.2, getKey_setKey_ne _ _ _ _ (fun hh => h.1 hh)]

end DictLemmas

/-- C2: the claim says every further recognized operator on an
already-filtered field merges into the existing sub-document.  That is
false for the engine-2 builder, whose `add_filter` assigns
`self.query[field] = {...}` for every operator: a second operator on the
same field replaces the first.  At the concrete input below, `gt` followed
by `lt` on `amount` leaves no `$gt` key at all. -/
theorem c2_merge_counterexample :
    getKey ((({} : Builder2).addFilter "amount" "gt" (.prim (.num 1))
        |>.addFilter "amount" "lt" (.prim (.num 5))).fields) "amount"
      = some (.ops [("$lt", .prim (.num 5))])
    ∧ (match getKey ((({} : Builder2).addFilter "amount" "gt" (.prim (.num 1))
        |>.addFilter "amount" "lt" (.prim (.num 5))).fields) "amount" with
       | some (.ops m) => hasKey m "$gt"
       | _ => true) = false := by
  exact ⟨rfl, rfl⟩

/-- C2 (amended): in the engine-1 builder (and for sal_1's non-`equals`
operators) a further recognized operator merges its native key into the
field's sub-document and previously accumulated operator keys survive; the
engine-2 builder replaces the field's clause instead (see the
counterexample), and a sal_1 `equals` condition also replaces. -/
theorem c2_merge_amended :
    (∀ (b : Builder1) (f op₁ op₂ : String) (v₁ v₂ : Value)
        (nk₁ nk₂ : String) (b₁ b₂ : Builder1),
      getKey opMap1 op₁ = some nk₁ → getKey opMap1 op₂ = some nk₂ →
      nk₁ ≠ nk₂ →
      b.addFilter f op₁ v₁ = .ok b₁ → b₁.addFilter f op₂ v₂ = .ok b₂ →
      getKey ((getKey b₂.filter f).getD []) nk₁ = some v₁ ∧
      getKey ((getKey b₂.filter f).getD []) nk₂ = some v₂)
    ∧ (∀ (query : SubFilter) (fc : FilterCondition) (m : List (String × Value)),
        fc.op ≠ .equals → (fieldQuery fc).isEmpty = false →
        getKey query fc.field = some (.ops m) →
        getKey (buildFilterStep query fc) fc.field
          = some (.ops ((fieldQuery fc).foldl (fun acc kv => setKey acc kv.1 kv.2) m)) ∧
        ∀ k w, getKey m k = some w → k ∉ (fieldQuery fc).map Prod.fst →
          getKey ((fieldQuery fc).foldl (fun acc kv => setKey acc kv.1 kv.2) m) k = some w)
    ∧ (∀ (f : String) (v₁ v₂ : Value),
        buildMongoFilter [⟨f, .greaterThan, v₁, false⟩, ⟨f, .lessThan, v₂, false⟩]
          = [(f, .ops [("$gt", v₁), ("$lt", v₂)])]) := by
  refine ⟨?_, ?_, ?_⟩
  · intro b f op₁ op₂ v₁ v₂ nk₁ nk₂ b₁ b₂ h₁ h₂ hne hb₁ hb₂
    have hop₁ : (op₁ == "regex") = false := by
      rcases hr : op₁ == "regex" with _ | _
      · rfl
      · rw [show op₁ = "regex" from by simpa using hr] at h₁
        simp [opMap1, getKey] at h₁
    have hop₂ : (op₂ == "regex") = false := by
      rcases hr : op₂ == "regex" with _ | _
      · rfl
      · rw [show op₂ = "regex" from by simpa using hr] at h₂
        simp [opMap1, getKey] at h₂
    unfold Builder1.addFilter at hb₁ hb₂
    rw [hop₁, h₁] at hb₁
    rw [hop₂, h₂] at hb₂
    simp only [Bool.false_eq_true, if_false, Except.ok.injEq] at hb₁ hb₂
    subst hb₁; subst hb₂
    simp only
    rw [getKey_setdefaultSet_self, getKey_setdefaultSet_self]
    simp only [Option.getD_some]
    constructor
    · rw [getKey_setKey_ne _ _ _ _ hne, getKey_setKey_self]
    · rw [getKey_setKey_self]
  · intro query fc m hne hfq hq
    obtain ⟨f, op, v, cs⟩ := fc
    have hstep : buildFilterStep query ⟨f, op, v, cs⟩
        = setKey query f (.ops ((fieldQuery ⟨f, op, v, cs⟩).foldl
            (fun acc kv => setKey acc kv.1 kv.2) m)) := by
      simp only at hq hfq
      cases op <;>
        first
        | exact absurd rfl hne
        | simp [buildFilterStep, hfq, hq] at hfq hq ⊢
    refine ⟨by rw [hstep, getKey_setKey_self], ?_⟩
    intro k w hk hnotin
    rw [getKey_foldl_setKey_not_mem _ _ _ hnotin]
    exact hk
  · intro f v₁ v₂
    simp [buildMongoFilter, buildFilterStep, fieldQuery, getKey, setKey]

/-- C2 witness: instantiating the amended merge theorem at concrete
operators `gt` then `lt` on one field of the engine-1 builder. -/
theorem c2_merge_witness :
    getKey ((getKey (((({} : Builder1).addFilter "amount" "gt" (.prim (.num 1))).bind
        (fun b => b.addFilter "amount" "lt" (.prim (.num 5)))
        |>.toOption.getD {}).filter) "amount").getD []) "$gt" = some (.prim (.num 1)) ∧
    getKey ((getKey (((({} : Builder1).addFilter "amount" "gt" (.prim (.num 1))).bind
        (fun b => b.addFilter "amount" "lt" (.prim (.num 5)))
        |>.toOption.getD {}).filter) "amount").getD []) "$lt" = some (.prim (.num 5)) := by
  have h := c2_merge_amended.1 {} "amount" "gt" "lt"
    (.prim (.num 1)) (.prim (.num 5)) "$gt" "$lt"
    (({} : Builder1).addFilter "amount" "gt" (.prim (.num 1)) |>.toOption.getD {})
    ((({} : Builder1).addFilter "amount" "gt" (.prim (.num 1))).bind
        (fun b => b.addFilter "amount" "lt" (.prim (.num 5))) |>.toOption.getD {})
    rfl rfl (by decide) rfl rfl
  exact h

/-- C5: the claim says `add_filter` with an unrecognized operator leaves the
filter untouched and never raises.  The engine-1 builder raises `ValueError`
instead, already at add time. -/
theorem c5_unknown_operator_counterexample :
    Builder1.addFilter {} "age" "between" (.prim .null)
      = .error "Unsupported operator: between" := rfl

/-- C5 (amended): the engine-2 builder (like sal_1's loop, whose operator
enum is closed) logs and skips an unrecognized operator, leaving the
accumulated state — filter, or-list, sort, skip and limit — exactly as it
was and raising nothing; the engine-1 builder instead raises `ValueError`
at add time. -/
theorem c5_unknown_operator_amended :
    (∀ (b : Builder2) (field op : String) (value : Value) (ci : Bool),
      op ∉ knownOps2 → b.addFilter field op value ci = b)
    ∧ (∀ (b : Builder1) (f op : String) (v : Value),
        op ≠ "regex" → getKey opMap1 op = none →
        b.addFilter f op v = .error ("Unsupported operator: " ++ op)) := by
  constructor
  · intro b field op value ci hop
    simp only [knownOps2, List.mem_cons, List.not_mem_nil, or_false] at hop
    push_neg at hop
    obtain ⟨h1, h2, h3, h4, h5, h6, h7, h8, h9, h10, h11, h12, h13⟩ := hop
    simp [Builder2.addFilter, h1, h2, h3, h4, h5, h6, h7, h8, h9, h10, h11, h12, h13]
  · intro b f op v hr hm
    simp [Builder1.addFilter, hr, hm]

/-- C5 witness: the amended theorem applied to the unknown operator
`between` on both builders. -/
theorem c5_unknown_operator_witness :
    (({} : Builder2).addFilter "age" "between" (.prim .null) false = {}) ∧
    (({} : Builder1).addFilter "age" "between" (.prim .null)
      = .error "Unsupported operator: between") :=
  ⟨c5_unknown_operator_amended.1 {} "age" "between" (.prim .null) false (by decide),
   c5_unknown_operator_amended.2 {} "age" "between" (.prim .null)
     (by decide) rfl⟩

/-- C6: `add_or_condition` accumulates by concatenation into the single
top-level `$or` list in both builders — two sequential calls with `[A,B]`
and `[C]` produce the flat list `[A,B,C]`, whose match semantics is
`OR(A,B,C)`; a later call never replaces earlier OR clauses. -/
theorem c6_or_accumulation :
    (∀ (b : Builder2) (conds : List SubFilter),
      (b.addOrCondition conds).orConds = some ((b.orConds.getD []) ++ conds))
    ∧ (∀ (b : Builder1) (conds : List SubFilter),
      (b.addOrCondition conds).orConds = some ((b.orConds.getD []) ++ conds))
    ∧ (∀ A B C : SubFilter,
      ((({} : Builder2).addOrCondition [A, B]).addOrCondition [C]).orConds
        = some [A, B, C])
    ∧ (∀ (A B C : SubFilter) (d : Doc),
      ((({} : Builder2).addOrCondition [A, B]).addOrCondition [C]).matches d
        = (matchesSubFilter A d || matchesSubFilter B d || matchesSubFilter C d)) := by
  refine ⟨fun b conds => rfl, ?_, fun A B C => rfl, ?_⟩
  · intro b conds
    cases h : b.orConds <;> simp [Builder1.addOrCondition, h]
  · intro A B C d
    simp [Builder2.matches, Builder2.addOrCondition, matchesFilter, matchesSubFilter,
      List.any_cons, Bool.or_assoc]

/-- C10: in the engine-2 builder, `execute` treats `limit = 0` and
`skip = 0` as unset (Python truthiness / the `> 0` guard): after
`set_limit(0)` the run equals the run with no limit at all and every
matching document comes back; after `set_skip(0)` the run equals the run
with the initial skip state. -/
theorem c10_zero_limit_skip :
    (∀ (b : Builder2) (docs : List Doc),
      (b.setLimit 0).execute docs = ({ b with limitCount := none }).execute docs)
    ∧ (∀ (b : Builder2) (docs : List Doc),
      (b.setSkip 0).execute docs = ({ b with skipCount := 0 }).execute docs)
    ∧ (∀ (fields : SubFilter) (orConds : Option (List SubFilter)) (docs : List Doc),
      ((({ fields := fields, orConds := orConds, sortParams := none,
           limitCount := some 0, skipCount := 0 } : Builder2).execute docs).length)
        = (docs.filter (matchesFilter fields orConds)).length) := by
  refine ⟨fun b docs => rfl, fun b docs => rfl, ?_⟩
  intro fields orConds docs
  simp only [Builder2.execute, List.length_map]
  rfl

section SortStageLemmas

theorem insertLe_perm {α : Type} (le : α → α → Bool) (x : α) (l : List α) :
    List.Perm (insertLe le x l) (x :: l) := by
  induction l with
  | nil => exact List.Perm.refl _
  | cons y t ih =>
      unfold insertLe
      by_cases h : le x y
      · simp [h]
      · simp only [h, Bool.false_eq_true, if_false]
        exact (ih.cons y).trans (List.Perm.swap x y t)

theorem sortLe_perm {α : Type} (le : α → α → Bool) (l : List α) :
    List.Perm (sortLe le l) l := by
  induction l with
  | nil => exact List.Perm.refl _
  | cons x t ih => exact (insertLe_perm le x (sortLe le t)).trans (ih.cons x)

theorem mem_sortDocs {sp : List (String × Int)} {docs : List Doc} {d : Doc}
    (h : d ∈ sortDocs sp docs) : d ∈ docs :=
  (sortLe_perm _ docs).subset h

theorem subset_sortOpt (o : Option (List (String × Int))) (l : List Doc) :
    (match o with
     | some sp => if sp.isEmpty then l else sortDocs sp l
     | none => l) ⊆ l := by
  cases o with
  | none => exact fun _ h => h
  | some sp =>
      by_cases h : sp.isEmpty
      · simp only [h, if_true]
        exact fun _ h => h
      · simp only [h, Bool.false_eq_true, if_false]
        exact fun _ hx => mem_sortDocs hx

theorem subset_skipOpt (o : Option Int) (l : List Doc) :
    (match o with
     | some n => if n == 0 then l else l.drop n.toNat
     | none => l) ⊆ l := by
  cases o with
  | none => exact fun _ h => h
  | some n =>
      by_cases h : n == 0
      · simp only [h, if_true]
        exact fun _ h => h
      · simp only [h, Bool.false_eq_true, if_false]
        exact List.drop_subset _ _

theorem subset_limitOpt (o : Option Int) (l : List Doc) :
    (match o with
     | some n => if n == 0 then l else l.take n.natAbs
     | none => l) ⊆ l := by
  cases o with
  | none => exact fun _ h => h
  | some n =>
      by_cases h : n == 0
      · simp only [h, if_true]
        exact fun _ h => h
      · simp only [h, Bool.false_eq_true, if_false]
        exact List.take_subset _ _

end SortStageLemmas

theorem idIsString_stringifyId (d : Doc) : idIsString (stringifyId d) = true := by
  unfold stringifyId
  cases h : getKey d "_id" with
  | none => simp [idIsString, h]
  | some v => simp [idIsString, getKey_setKey_self]

/-- C7: the claim says every document coming out of the Query Translator's
`execute()` has its `_id` converted to a plain string.  Engine 1's
`execute` returns the fetched documents unchanged — an `ObjectId` survives
as is. -/
theorem c7_id_stringified_counterexample :
    ({} : Builder1).execute [[("_id", .prim (.oid "507f1f77bcf86cd799439011"))]]
      = [[("_id", .prim (.oid "507f1f77bcf86cd799439011"))]]
    ∧ idIsString [("_id", Value.prim (.oid "507f1f77bcf86cd799439011"))] = false :=
  ⟨rfl, rfl⟩

/-- C7 (amended): the engine-2 builder's `execute` — filter, then sort,
then skip, then limit — indeed converts every returned document's `_id`
(when present) to a plain string; the engine-1 builder applies the same
stage order but returns the documents unchanged, so its `_id` values keep
their native type. -/
theorem c7_id_stringified_amended :
    (∀ (b : Builder2) (docs : List Doc) (d : Doc),
      d ∈ b.execute docs → idIsString d = true)
    ∧ (∀ (b : Builder1) (docs : List Doc) (d : Doc),
      d ∈ b.execute docs → d ∈ docs) := by
  constructor
  · intro b docs d hd
    unfold Builder2.execute at hd
    obtain ⟨pre, _, rfl⟩ := List.mem_map.mp hd
    exact idIsString_stringifyId pre
  · intro b docs d hd
    dsimp only [Builder1.execute] at hd
    exact List.mem_of_mem_filter
      (subset_sortOpt _ _ (subset_skipOpt _ _ (subset_limitOpt _ _ hd)))

/-- C7 witness: the amended theorem applied to a one-document collection
holding an ObjectId `_id`, on both builders. -/
theorem c7_id_stringified_witness :
    idIsString [("_id", Value.prim (.str "507f1f77bcf86cd799439011"))] = true
    ∧ [("_id", Value.prim (.oid "507f1f77bcf86cd799439011"))]
        ∈ [[("_id", Value.prim (.oid "507f1f77bcf86cd799439011"))]] :=
  ⟨c7_id_stringified_amended.1 {} [[("_id", .prim (.oid "507f1f77bcf86cd799439011"))]]
      [("_id", .prim (.str "507f1f77bcf86cd799439011"))] (by decide),
   c7_id_stringified_amended.2 {} [[("_id", .prim (.oid "507f1f77bcf86cd799439011"))]]
      [("_id", .prim (.oid "507f1f77bcf86cd799439011"))] (by decide)⟩

section RegexLemmas

theorem goPat_backslash (d : Char) (rest : List Char) :
    goPat ('\\' :: d :: rest) = (goPat rest).map fun q => (d :: q.1, q.2) := rfl

theorem goPat_plain (c : Char) (rest : List Char) (h1 : (c == '\\') = false)
    (h2 : (c == '$') = false) (h3 : isSpecialChar c = false) :
    goPat (c :: rest) = (goPat rest).map fun q => (c :: q.1, q.2) := by
  rw [goPat.eq_def]
  simp only [h1, h2, h3, Bool.false_eq_true, if_false]

theorem goPat_escList (t : List Char) (cs : List Char) :
    goPat (escList cs ++ t) = (goPat t).map fun q => (cs ++ q.1, q.2) := by
  induction cs with
  | nil => cases h : goPat t <;> simp [escList, h]
  | cons c cs ih =>
      rcases hsp : isSpecialChar c with _ | _
      · have hc1 : (c == '\\') = false := by
          rcases h : c == '\\' with _ | _
          · rfl
          · have hcc : c = '\\' := by simpa using h
            rw [hcc] at hsp
            simp [isSpecialChar, specialChars] at hsp
        have hc2 : (c == '$') = false := by
          rcases h : c == '$' with _ | _
          · rfl
          · have hcc : c = '$' := by simpa using h
            rw [hcc] at hsp
            simp [isSpecialChar, specialChars] at hsp
        simp only [escList, hsp, Bool.false_eq_true, if_false, List.cons_append]
        rw [goPat_plain c _ hc1 hc2 hsp, ih]
        cases goPat t <;> simp
      · simp only [escList, hsp, if_true, List.cons_append]
        rw [goPat_backslash, ih]
        cases goPat t <;> simp

theorem goPat_escList_nil (cs : List Char) :
    goPat (escList cs) = some (cs, false) := by
  have h := goPat_escList [] cs
  simpa [goPat] using h

theorem goPat_escList_dollar (cs : List Char) :
    goPat (escList cs ++ ['$']) = some (cs, true) := by
  have h := goPat_escList ['$'] cs
  simpa [goPat] using h

theorem escList_head_not_caret (c : Char) (cs : List Char) :
    ∃ d rest, escList (c :: cs) = d :: rest ∧ (d == '^') = false := by
  rcases hsp : isSpecialChar c with _ | _
  · refine ⟨c, escList cs, by simp [escList, hsp], ?_⟩
    rcases h : c == '^' with _ | _
    · rfl
    · have hcc : c = '^' := by simpa using h
      rw [hcc] at hsp
      simp [isSpecialChar, specialChars] at hsp
  · exact ⟨'\\', c :: escList cs, by simp [escList, hsp], rfl⟩

theorem parsePattern_escape (s : String) :
    parsePattern (escapeRe s) = some (false, s.data, false) := by
  unfold parsePattern escapeRe
  cases hs : s.data with
  | nil => simp [escList, goPat]
  | cons c cs =>
      obtain ⟨d, rest, he, hd⟩ := escList_head_not_caret c cs
      simp only [he, hd, Bool.false_eq_true, if_false]
      rw [← he, goPat_escList_nil]
      rfl

theorem parsePattern_caret (s : String) :
    parsePattern ("^" ++ escapeRe s) = some (true, s.data, false) := by
  have hdata : ("^" ++ escapeRe s).data = '^' :: escList s.data := rfl
  unfold parsePattern
  rw [hdata]
  simp only [show ('^' == '^') = true from rfl, if_true]
  rw [goPat_escList_nil]
  rfl

theorem parsePattern_dollar (s : String) :
    parsePattern (escapeRe s ++ "$") = some (false, s.data, true) := by
  have hdata : (escapeRe s ++ "$").data = escList s.data ++ ['$'] := rfl
  unfold parsePattern
  rw [hdata]
  cases hs : s.data with
  | nil => simp [escList, goPat]
  | cons c cs =>
      obtain ⟨d, rest, he, hd⟩ := escList_head_not_caret c cs
      simp only [he, List.cons_append, hd, Bool.false_eq_true, if_false]
      rw [← List.cons_append, ← he, goPat_escList_dollar]
      rfl

end RegexLemmas

/-- C9: sal_1's `contains` / `starts_with` / `ends_with` translation embeds
the `re.escape`-d literal value (with `^` / `$` anchors for starts/ends)
and adds the `"i"` option exactly when the condition is case-insensitive;
consequently the produced pattern parses back as the literal value — every
metacharacter matches itself — and the modelled regex semantics reduces to
substring / prefix / suffix matching of the raw value. -/
theorem c9_regex_escaping :
    (∀ (f : String) (v : Value) (cs : Bool),
      buildMongoFilter [⟨f, .contains, v, cs⟩]
        = [(f, .ops (if cs then [("$regex", .prim (.str (escapeRe (pyStr v))))]
            else [("$regex", .prim (.str (escapeRe (pyStr v)))),
                  ("$options", .prim (.str "i"))]))])
    ∧ (∀ (f : String) (v : Value) (cs : Bool),
      buildMongoFilter [⟨f, .startsWith, v, cs⟩]
        = [(f, .ops (if cs then [("$regex", .prim (.str ("^" ++ escapeRe (pyStr v))))]
            else [("$regex", .prim (.str ("^" ++ escapeRe (pyStr v)))),
                  ("$options", .prim (.str "i"))]))])
    ∧ (∀ (f : String) (v : Value) (cs : Bool),
      buildMongoFilter [⟨f, .endsWith, v, cs⟩]
        = [(f, .ops (if cs then [("$regex", .prim (.str (escapeRe (pyStr v) ++ "$")))]
            else [("$regex", .prim (.str (escapeRe (pyStr v) ++ "$"))),
                  ("$options", .prim (.str "i"))]))])
    ∧ (∀ s : String, parsePattern (escapeRe s) = some (false, s.data, false))
    ∧ (∀ s : String, parsePattern ("^" ++ escapeRe s) = some (true, s.data, false))
    ∧ (∀ s : String, parsePattern (escapeRe s ++ "$") = some (false, s.data, true))
    ∧ (∀ s subj : String,
        regexMatches (escapeRe s) false subj = isSubstring s.data subj.data)
    ∧ (∀ s subj : String,
        regexMatches ("^" ++ escapeRe s) false subj = s.data.isPrefixOf subj.data)
    ∧ (∀ s subj : String,
        regexMatches (escapeRe s ++ "$") false subj = s.data.isSuffixOf subj.data) := by
  refine ⟨?_, ?_, ?_, parsePattern_escape, parsePattern_caret, parsePattern_dollar,
    ?_, ?_, ?_⟩
  · intro f v cs; cases cs <;> rfl
  · intro f v cs; cases cs <;> rfl
  · intro f v cs; cases cs <;> rfl
  · intro s subj
    unfold regexMatches
    rw [parsePattern_escape]
    rfl
  · intro s subj
    unfold regexMatches
    rw [parsePattern_caret]
    rfl
  · intro s subj
    unfold regexMatches
    rw [parsePattern_dollar]
    rfl

section ManagerLemmas

theorem getKey_executeAnalyses2Go_not_mem (reg : String → Option Service2)
    (rawData : List Doc) (useAgg : Bool)
    (aggOf : String → Option (Except String (List JValue)))
    (names : List String) (results : List (String × JValue)) (n : String)
    (h : n ∉ names) :
    getKey (executeAnalyses2Go reg rawData useAgg aggOf names results) n
      = getKey results n := by
  induction names generalizing results with
  | nil => rfl
  | cons name rest ih =>
      simp only [List.mem_cons] at h
      push_neg at h
      simp only [executeAnalyses2Go]
      rw [ih _ h.2, getKey_setKey_ne _ _ _ _ h.1]

theorem getKey_executeAnalyses2Go_mem (reg : String → Option Service2)
    (rawData : List Doc) (useAgg : Bool)
    (aggOf : String → Option (Except String (List JValue)))
    (names : List String) (results : List (String × JValue)) (n : String)
    (h : n ∈ names) :
    getKey (executeAnalyses2Go reg rawData useAgg aggOf names results) n
      = some (analysisEntry2 reg rawData useAgg aggOf n) := by
  induction names generalizing results with
  | nil => cases h
  | cons name rest ih =>
      by_cases hn : n ∈ rest
      · simp only [executeAnalyses2Go]
        exact ih _ hn
      · have hname : n = name := by
          rcases List.mem_cons.mp h with h | h
          · exact h
          · exact absurd h hn
        subst hname
        simp only [executeAnalyses2Go]
        rw [getKey_executeAnalyses2Go_not_mem _ _ _ _ _ _ _ hn, getKey_setKey_self]

theorem resolveServices1_error_of_firstUnknown
    (requested : List (String × List (String × JValue))) (bad : String)
    (h : firstUnknown1 requested = some bad) :
    resolveServices1 requested
      = .error ("Analytics service named '" ++ bad ++ "' was not found.") := by
  induction requested with
  | nil => simp [firstUnknown1] at h
  | cons hd rest ih =>
      obtain ⟨name, params⟩ := hd
      simp only [firstUnknown1] at h
      by_cases hk : (getKey availableServices1 name).isSome
      · rw [if_pos hk] at h
        simp only [resolveServices1]
        cases hkk : getKey availableServices1 name with
        | none => rw [hkk] at hk; simp at hk
        | some k => rw [ih h]; rfl
      · rw [if_neg hk] at h
        injection h with h'
        subst h'
        simp only [resolveServices1]
        cases hkk : getKey availableServices1 name with
        | some k => rw [hkk] at hk; simp at hk
        | none => rfl

end ManagerLemmas

/-- C3: the claim says an exception inside one analysis never aborts "the
Pipeline Manager's" loop.  Engine 1's `run_pipeline` has no `try/except`
around `service.process`: at the concrete request below the grouping
service raises on its missing params and the whole batch errors — the
sibling `sales_by_region` analysis never appears in any result map. -/
theorem c3_failure_isolation_counterexample :
    runPipeline1
        [[("region", .prim (.str "north")), ("sales_amount", .prim (.num 10)),
          ("units_sold", .prim (.num 1))]]
        {} [("group_and_aggregate", []), ("sales_by_region", [])]
      = .error "GroupingService requires 'group_by_columns' (list) and 'aggregations' (dict) in params." :=
  rfl

/-- C3 (amended): in the engine-2 orchestrator the claim holds — every
requested analysis name receives exactly its per-analysis entry (so a
failing analysis never prevents the remaining ones from appearing), and an
exception raised inside a resolved analysis on non-empty data is converted
to the structured `{"error": message}` entry.  Engine 1's `run_pipeline`
instead propagates the first exception and aborts the batch (see the
counterexample). -/
theorem c3_failure_isolation_amended :
    (∀ (reg : String → Option Service2) (rawData : List Doc)
        (aggOf : String → Option (Except String (List JValue)))
        (names : List String) (n : String), n ∈ names →
      getKey (executeAnalyses2 reg rawData false aggOf names) n
        = some (analysisEntry2 reg rawData false aggOf n))
    ∧ (∀ (reg : String → Option Service2) (rawData : List Doc)
        (aggOf : String → Option (Except String (List JValue)))
        (n : String) (s : Service2) (e : String),
      reg n = some s → rawData ≠ [] → s.analyzeWithPandas rawData = .error e →
      analysisEntry2 reg rawData false aggOf n = errObj e) := by
  constructor
  · intro reg rawData aggOf names n h
    exact getKey_executeAnalyses2Go_mem reg rawData false aggOf names [] n h
  · intro reg rawData aggOf n s e hreg hne herr
    unfold analysisEntry2
    rw [hreg]
    unfold Service2.process
    cases hraw : rawData with
    | nil => exact absurd hraw hne
    | cons d rest =>
        simp only [List.isEmpty_cons, Bool.false_eq_true, if_false]
        rw [← hraw, herr]

/-- C3 witness: the amended theorem applied to the registry extended with a
raising service, requested together with `sales_by_region`: the failing
analysis yields an error entry and the sibling still gets its entry. -/
theorem c3_failure_isolation_witness :
    getKey (executeAnalyses2 regWithBoom oneRowData false (fun _ => none)
        ["boom", "sales_by_region"]) "boom"
      = some (analysisEntry2 regWithBoom oneRowData false (fun _ => none) "boom")
    ∧ analysisEntry2 regWithBoom oneRowData false (fun _ => none) "boom"
      = errObj "TypeError: unsupported operand type(s)"
    ∧ getKey (executeAnalyses2 regWithBoom oneRowData false (fun _ => none)
        ["boom", "sales_by_region"]) "sales_by_region"
      = some (analysisEntry2 regWithBoom oneRowData false (fun _ => none) "sales_by_region") :=
  ⟨c3_failure_isolation_amended.1 regWithBoom oneRowData (fun _ => none)
      ["boom", "sales_by_region"] "boom" (by decide),
   c3_failure_isolation_amended.2 regWithBoom oneRowData (fun _ => none)
      "boom" boomService "TypeError: unsupported operand type(s)" rfl
      (by simp [oneRowData]) rfl,
   c3_failure_isolation_amended.1 regWithBoom oneRowData (fun _ => none)
      ["boom", "sales_by_region"] "sales_by_region" (by decide)⟩

/-- C4: the claim says an unregistered analysis name makes "the Pipeline
Manager" abort the whole batch with no analysis producing a result.
Engine 2's manager does not abort: at the concrete input below the unknown
name only gets a per-analysis error entry and the sibling analysis still
produces its (no-data) result. -/
theorem c4_unknown_analysis_counterexample :
    getKey (executeAnalyses2 getService2 [] false (fun _ => none)
        ["nonexistent", "sales_by_region"]) "sales_by_region" = some noDataMarker2
    ∧ getKey (executeAnalyses2 getService2 [] false (fun _ => none)
        ["nonexistent", "sales_by_region"]) "nonexistent"
      = some (errObj "Analysis service 'nonexistent' not found") :=
  ⟨rfl, rfl⟩

/-- C4 (amended): engine 1's `run_pipeline` behaves as claimed — the first
unknown requested name aborts the whole batch with a `ValueError` naming
it, before any analysis runs, so no analysis produces a result; engine 2's
`execute_analyses` instead records `{"error": "... not found"}` under the
unknown name and still produces an entry for every other requested
analysis. -/
theorem c4_unknown_analysis_amended :
    (∀ (collection : List Doc) (criteria : Criteria1)
        (requested : List (String × List (String × JValue))) (bad : String),
      firstUnknown1 requested = some bad →
      runPipeline1 collection criteria requested
        = .error ("Analytics service named '" ++ bad ++ "' was not found."))
    ∧ (∀ (reg : String → Option Service2) (rawData : List Doc)
        (aggOf : String → Option (Except String (List JValue)))
        (names : List String) (n : String),
      n ∈ names → reg n = none →
      getKey (executeAnalyses2 reg rawData false aggOf names) n
        = some (errObj ("Analysis service '" ++ n ++ "' not found")))
    ∧ (∀ (reg : String → Option Service2) (rawData : List Doc)
        (aggOf : String → Option (Except String (List JValue)))
        (names : List String) (n : String), n ∈ names →
      (getKey (executeAnalyses2 reg rawData false aggOf names) n).isSome) := by
  refine ⟨?_, ?_, ?_⟩
  · intro collection criteria requested bad h
    unfold runPipeline1
    rw [resolveServices1_error_of_firstUnknown requested bad h]
  · intro reg rawData aggOf names n hmem hreg
    unfold executeAnalyses2
    rw [getKey_executeAnalyses2Go_mem reg rawData false aggOf names [] n hmem]
    unfold analysisEntry2
    rw [hreg]
  · intro reg rawData aggOf names n hmem
    unfold executeAnalyses2
    rw [getKey_executeAnalyses2Go_mem reg rawData false aggOf names [] n hmem]
    rfl

/-- C4 witness: the amended theorem applied to a request naming the
unregistered `nonexistent` analysis, on both managers. -/
theorem c4_unknown_analysis_witness :
    runPipeline1 [] {} [("nonexistent", []), ("sales_by_region", [])]
      = .error "Analytics service named 'nonexistent' was not found."
    ∧ getKey (executeAnalyses2 getService2 [] false (fun _ => none)
        ["nonexistent", "sales_by_region"]) "nonexistent"
      = some (errObj "Analysis service 'nonexistent' not found")
    ∧ (getKey (executeAnalyses2 getService2 [] false (fun _ => none)
        ["nonexistent", "sales_by_region"]) "sales_by_region").isSome :=
  ⟨c4_unknown_analysis_amended.1 [] {} [("nonexistent", []), ("sales_by_region", [])]
      "nonexistent" rfl,
   c4_unknown_analysis_amended.2.1 getService2 [] (fun _ => none)
      ["nonexistent", "sales_by_region"] "nonexistent" (by decide) rfl,
   c4_unknown_analysis_amended.2.2 getService2 [] (fun _ => none)
      ["nonexistent", "sales_by_region"] "sales_by_region" (by decide)⟩

/-- C8: the claim says every registered analysis invoked with zero rows
returns its documented "no data" marker object, no error and no exception.
Two registered engine-1 services violate it.  The grouping service
validates its params *before* the empty-data check: with zero rows and
missing params it raises `ValueError` instead of returning the marker.
And the user-activity service returns its raw aggregation rows: with zero
matching rows that is the bare list `[]` — not an object, so no documented
"no data" marker at all. -/
theorem c8_empty_input_counterexample :
    groupingProcess1 [] []
      = .error "GroupingService requires 'group_by_columns' (list) and 'aggregations' (dict) in params."
    ∧ uaProcess1 (some ({} : Builder1)) [] = .ok (.arr [])
    ∧ (match uaProcess1 (some ({} : Builder1)) [] with
       | .ok (.obj _) => true
       | _ => false) = false :=
  ⟨rfl, rfl, rfl⟩

/-- C8 (amended): with zero rows and an otherwise valid invocation no
registered analysis raises, but only some return their documented "no
data" marker: any engine-2 service via `process` does (both the in-memory
branch and the aggregation branch with an empty pipeline result), engine
1's sales-by-region service does, and engine 1's grouping service does
provided its params pass validation — with invalid params it raises even
for zero rows.  Engine 1's registered user-activity service instead
returns the bare empty aggregation list `[]`, which is no marker object
(see the counterexample for both deviations). -/
theorem c8_empty_input_amended :
    (∀ s : Service2, s.process [] false none = noDataMarker2)
    ∧ (∀ s : Service2, s.process [] true (some (.ok [])) = noDataFoundMarker2)
    ∧ salesProcess1 [] = .ok (.obj [("summary", .str "No data provided for analysis.")])
    ∧ (∀ params : List (String × JValue), validGroupingParams params = true →
        groupingProcess1 [] params
          = .ok (.obj [("summary", .str "No data for analysis.")]))
    ∧ (∀ qb : Builder1, uaProcess1 (some qb) [] = .ok (.arr [])) := by
  refine ⟨fun s => rfl, fun s => rfl, rfl, ?_, ?_⟩
  · intro params h
    unfold validGroupingParams at h
    split at h
    case _ a l b m h1 h2 =>
      simp [groupingProcess1, h1, h2, jTruthy]
    case _ =>
      cases h
  · intro qb
    unfold uaProcess1
    cases h : qb.filter.isEmpty <;> simp [h]

/-- C8 witness: the amended theorem's hypothesis-bearing grouping conjunct
applied to concrete well-formed params, together with the user-activity
conjunct at the empty builder. -/
theorem c8_empty_input_witness :
    validGroupingParams groupingParamsOk = true
    ∧ groupingProcess1 [] groupingParamsOk
      = .ok (.obj [("summary", .str "No data for analysis.")])
    ∧ uaProcess1 (some ({} : Builder1)) [] = .ok (.arr []) :=
  ⟨rfl, c8_empty_input_amended.2.2.2.1 groupingParamsOk rfl,
   c8_empty_input_amended.2.2.2.2 {}⟩

section DedupLemmas

theorem firstDedupGo_cons_mem {seen : List String} {b : String}
    (t : List String) (hb : b ∈ seen) :
    firstDedupGo seen (b :: t) = firstDedupGo seen t := by
  simp [firstDedupGo, hb]

theorem firstDedupGo_cons_not_mem {seen : List String} {b : String}
    (t : List String) (hb : b ∉ seen) :
    firstDedupGo seen (b :: t) = b :: firstDedupGo (b :: seen) t := by
  simp [firstDedupGo, hb]

theorem mem_firstDedupGo (l : List String) (seen : List String) (a : String) :
    a ∈ firstDedupGo seen l ↔ a ∈ l ∧ a ∉ seen := by
  induction l generalizing seen with
  | nil => simp [firstDedupGo]
  | cons b t ih =>
      by_cases hb : b ∈ seen
      · rw [firstDedupGo_cons_mem t hb, ih]
        simp only [List.mem_cons]
        by_cases hab : a = b
        · subst hab
          simp [hb]
        · simp [hab]
      · rw [firstDedupGo_cons_not_mem t hb]
        simp only [List.mem_cons, ih]
        by_cases hab : a = b
        · subst hab
          simp [hb]
        · simp [hab]

theorem nodup_firstDedupGo (l : List String) (seen : List String) :
    (firstDedupGo seen l).Nodup := by
  induction l generalizing seen with
  | nil => exact List.nodup_nil
  | cons b t ih =>
      by_cases hb : b ∈ seen
      · rw [firstDedupGo_cons_mem t hb]
        exact ih seen
      · rw [firstDedupGo_cons_not_mem t hb]
        refine List.nodup_cons.mpr ⟨fun hmem => ?_, ih (b :: seen)⟩
        exact ((mem_firstDedupGo t (b :: seen) b).mp hmem).2 (List.mem_cons_self b seen)

theorem mem_firstDedup (l : List String) (a : String) :
    a ∈ firstDedup l ↔ a ∈ l := by
  simpa [firstDedup] using mem_firstDedupGo l [] a

theorem nodup_firstDedup (l : List String) : (firstDedup l).Nodup :=
  nodup_firstDedupGo l []

theorem firstDedup_ne_nil {l : List String} (h : l ≠ []) : firstDedup l ≠ [] := by
  cases l with
  | nil => exact absurd rfl h
  | cons a t =>
      rw [firstDedup, firstDedupGo_cons_not_mem t (List.not_mem_nil a)]
      exact List.cons_ne_nil _ _

end DedupLemmas

section SumLemmas

theorem sum_map_zero_q (R : List String) : (R.map fun _ => (0 : ℚ)).sum = 0 := by
  induction R with
  | nil => rfl
  | cons a t ih => simp [ih]

theorem sum_ite_not_mem (R : List String) (c : String) (a : ℚ) (h : c ∉ R) :
    (R.map fun r => if c = r then a else 0).sum = 0 := by
  induction R with
  | nil => rfl
  | cons b t ih =>
      simp only [List.mem_cons] at h
      push_neg at h
      simp [h.1, ih h.2]

theorem sum_ite_mem (R : List String) (c : String) (a : ℚ) (hnd : R.Nodup)
    (h : c ∈ R) : (R.map fun r => if c = r then a else 0).sum = a := by
  induction R with
  | nil => cases h
  | cons b t ih =>
      rcases List.nodup_cons.mp hnd with ⟨hb, hnd'⟩
      rcases List.mem_cons.mp h with hcb | hct
      · subst hcb
        simp [sum_ite_not_mem t c a hb]
      · have hcb : c ≠ b := fun hh => hb (hh ▸ hct)
        simp [hcb, ih hnd' hct]

theorem regionSum_cons (x : SalesRow) (D : List SalesRow) (r : String) :
    regionSum (x :: D) r
      = (if x.region = r then x.sales_amount else 0) + regionSum D r := by
  by_cases h : x.region = r
  · simp [regionSum, amountsFor, List.filter_cons, h]
  · simp [regionSum, amountsFor, List.filter_cons, h]

theorem sum_regionSum_eq_totalSales (D : List SalesRow) (R : List String)
    (hnd : R.Nodup) (hcov : ∀ x ∈ D, x.region ∈ R) :
    (R.map (regionSum D)).sum = totalSales D := by
  induction D with
  | nil =>
      have h : R.map (regionSum []) = R.map fun _ => (0 : ℚ) :=
        List.map_congr_left fun r _ => by simp [regionSum, amountsFor]
      simp [h, sum_map_zero_q, totalSales]
  | cons x D' ih =>
      have h : R.map (regionSum (x :: D'))
          = R.map fun r => (if x.region = r then x.sales_amount else 0) + regionSum D' r :=
        List.map_congr_left fun r _ => regionSum_cons x D' r
      rw [h, List.sum_map_add,
        sum_ite_mem R x.region x.sales_amount hnd (hcov x (List.mem_cons_self x D')),
        ih fun y hy => hcov y (List.mem_cons_of_mem x hy)]
      simp [totalSales]

end SumLemmas

section SortAgreeLemmas

variable {α : Type} {β : Type}

theorem orderedInsert_map (r : α → α → Prop) (s : β → β → Prop)
    [DecidableRel r] [DecidableRel s] (f : α → β)
    (hf : ∀ a b, s (f a) (f b) ↔ r a b) (a : α) (l : List α) :
    List.orderedInsert s (f a) (l.map f) = (List.orderedInsert r a l).map f := by
  induction l with
  | nil => rfl
  | cons b t ih =>
      by_cases h : r a b
      · simp only [List.map_cons, List.orderedInsert]
        rw [if_pos ((hf a b).mpr h), if_pos h]
        rfl
      · simp only [List.map_cons, List.orderedInsert]
        rw [if_neg (fun hs => h ((hf a b).mp hs)), if_neg h]
        simp [ih]

theorem insertionSort_map (r : α → α → Prop) (s : β → β → Prop)
    [DecidableRel r] [DecidableRel s] (f : α → β)
    (hf : ∀ a b, s (f a) (f b) ↔ r a b) (l : List α) :
    List.insertionSort s (l.map f) = (List.insertionSort r l).map f := by
  induction l with
  | nil => rfl
  | cons a t ih =>
      simp only [List.map_cons, List.insertionSort]
      rw [ih, orderedInsert_map r s f hf]

theorem head?_rel_all {r : α → α → Prop} {l : List α} (h : l.Pairwise r)
    {y : α} (hy : l.head? = some y) : ∀ x ∈ l, x = y ∨ r y x := by
  cases l with
  | nil => cases hy
  | cons a t =>
      injection hy with hy
      subst hy
      rcases List.pairwise_cons.mp h with ⟨ha, _⟩
      intro x hx
      rcases List.mem_cons.mp hx with hxa | hxt
      · exact Or.inl hxa
      · exact Or.inr (ha x hxt)

theorem getLast?_rel_all {r : α → α → Prop} {l : List α} (h : l.Pairwise r)
    {z : α} (hz : l.getLast? = some z) : ∀ x ∈ l, x = z ∨ r x z := by
  induction l with
  | nil => cases hz
  | cons a t ih =>
      cases t with
      | nil =>
          injection hz with hz
          subst hz
          intro x hx
          rcases List.mem_cons.mp hx with hxa | hxt
          · exact Or.inl hxa
          · cases hxt
      | cons b t' =>
          rw [List.getLast?_cons_cons] at hz
          rcases List.pairwise_cons.mp h with ⟨ha, ht⟩
          intro x hx
          rcases List.mem_cons.mp hx with hxa | hxt
          · subst hxa
            refine Or.inr (ha z ?_)
            obtain ⟨hne, hzl⟩ := List.mem_getLast?_eq_getLast hz
            exact hzl ▸ List.getLast_mem hne
          · exact ih ht hz x hxt

theorem eq_of_pairwise_key_ne {k : α → ℚ} {l : List α}
    (h : l.Pairwise fun a b => k a ≠ k b) {a b : α}
    (ha : a ∈ l) (hb : b ∈ l) (hk : k a = k b) : a = b := by
  induction l with
  | nil => cases ha
  | cons c t ih =>
      rcases List.pairwise_cons.mp h with ⟨hc, ht⟩
      rcases List.mem_cons.mp ha with hac | hat
      · rcases List.mem_cons.mp hb with hbc | hbt
        · exact hac.trans hbc.symm
        · exact absurd (hac ▸ hk) (hc b hbt)
      · rcases List.mem_cons.mp hb with hbc | hbt
        · exact absurd (hbc ▸ hk.symm) (hc a hat)
        · exact ih ht hat hbt

/-- Sorting two permuted lists in descending key order yields the same first
and the same last element, provided the keys are pairwise distinct. -/
theorem sort_desc_agree (k : α → ℚ) (l₁ l₂ : List α)
    (hperm : List.Perm l₁ l₂)
    (hnd : l₁.Pairwise fun a b => k a ≠ k b) :
    (List.insertionSort (fun a b => k b ≤ k a) l₁).head?
      = (List.insertionSort (fun a b => k b ≤ k a) l₂).head?
    ∧ (List.insertionSort (fun a b => k b ≤ k a) l₁).getLast?
      = (List.insertionSort (fun a b => k b ≤ k a) l₂).getLast? := by
  haveI htot : IsTotal α fun a b => k b ≤ k a :=
    ⟨fun a b => (le_total (k b) (k a)).imp id id⟩
  haveI htrans : IsTrans α fun a b => k b ≤ k a :=
    ⟨fun a b c hab hbc => le_trans hbc hab⟩
  set s₁ := List.insertionSort (fun a b => k b ≤ k a) l₁ with hs₁def
  set s₂ := List.insertionSort (fun a b => k b ≤ k a) l₂ with hs₂def
  have hp₁ : List.Perm s₁ l₁ := List.perm_insertionSort _ l₁
  have hp₂ : List.Perm s₂ l₂ := List.perm_insertionSort _ l₂
  have hsort₁ : s₁.Pairwise fun a b => k b ≤ k a := List.sorted_insertionSort _ l₁
  have hsort₂ : s₂.Pairwise fun a b => k b ≤ k a := List.sorted_insertionSort _ l₂
  have hmem : ∀ x, x ∈ s₁ ↔ x ∈ s₂ := fun x =>
    (hp₁.mem_iff).trans ((hperm.mem_iff).trans hp₂.mem_iff.symm)
  have hkey : ∀ {y₁ y₂ : α}, y₁ ∈ s₁ → y₂ ∈ s₁ → k y₁ = k y₂ → y₁ = y₂ :=
    fun hy₁ hy₂ hk =>
      eq_of_pairwise_key_ne hnd (hp₁.subset hy₁) (hp₁.subset hy₂) hk
  have hnil : s₁ = [] → s₂ = [] := by
    intro hs₁nil
    have hl₁ : l₁ = [] := by
      rw [hs₁nil] at hp₁
      exact hp₁.symm.eq_nil
    have hl₂ : l₂ = [] := by
      rw [hl₁] at hperm
      exact hperm.symm.eq_nil
    rw [hl₂] at hp₂
    exact hp₂.eq_nil
  constructor
  · cases h₁ : s₁.head? with
    | none =>
        rw [hnil (List.head?_eq_none_iff.mp h₁)]
        rfl
    | some y₁ =>
        have hy₁s₁ : y₁ ∈ s₁ := List.mem_of_mem_head? (by simp [h₁])
        cases h₂ : s₂.head? with
        | none =>
            have : y₁ ∈ s₂ := (hmem y₁).mp hy₁s₁
            rw [List.head?_eq_none_iff.mp h₂] at this
            cases this
        | some y₂ =>
            have hy₂s₂ : y₂ ∈ s₂ := List.mem_of_mem_head? (by simp [h₂])
            have hy₂s₁ : y₂ ∈ s₁ := (hmem y₂).mpr hy₂s₂
            have max₁ : ∀ x ∈ s₁, k x ≤ k y₁ := fun x hx => by
              rcases head?_rel_all hsort₁ h₁ x hx with h | h
              · exact h ▸ le_refl _
              · exact h
            have max₂ : ∀ x ∈ s₂, k x ≤ k y₂ := fun x hx => by
              rcases head?_rel_all hsort₂ h₂ x hx with h | h
              · exact h ▸ le_refl _
              · exact h
            have hkeq : k y₁ = k y₂ :=
              le_antisymm (max₂ y₁ ((hmem y₁).mp hy₁s₁)) (max₁ y₂ hy₂s₁)
            rw [hkey hy₁s₁ hy₂s₁ hkeq]
  · cases h₁ : s₁.getLast? with
    | none =>
        rw [hnil (List.getLast?_eq_none_iff.mp h₁)]
        rfl
    | some z₁ =>
        have hz₁s₁ : z₁ ∈ s₁ := by
          have hm : z₁ ∈ s₁.getLast? := by simp [Option.mem_def, h₁]
          obtain ⟨hne, hzl⟩ := List.mem_getLast?_eq_getLast hm
          exact hzl ▸ List.getLast_mem hne
        cases h₂ : s₂.getLast? with
        | none =>
            have : z₁ ∈ s₂ := (hmem z₁).mp hz₁s₁
            rw [List.getLast?_eq_none_iff.mp h₂] at this
            cases this
        | some z₂ =>
            have hz₂s₂ : z₂ ∈ s₂ := by
              have hm : z₂ ∈ s₂.getLast? := by simp [Option.mem_def, h₂]
              obtain ⟨hne, hzl⟩ := List.mem_getLast?_eq_getLast hm
              exact hzl ▸ List.getLast_mem hne
            have hz₂s₁ : z₂ ∈ s₁ := (hmem z₂).mpr hz₂s₂
            have min₁ : ∀ x ∈ s₁, k z₁ ≤ k x := fun x hx => by
              rcases getLast?_rel_all hsort₁ h₁ x hx with h | h
              · exact h ▸ le_refl _
              · exact h
            have min₂ : ∀ x ∈ s₂, k z₂ ≤ k x := fun x hx => by
              rcases getLast?_rel_all hsort₂ h₂ x hx with h | h
              · exact h ▸ le_refl _
              · exact h
            have hkeq : k z₁ = k z₂ :=
              le_antisymm (min₁ z₂ hz₂s₁) (min₂ z₁ ((hmem z₁).mp hz₁s₁))
            rw [hkey hz₁s₁ hz₂s₁ hkeq]

end SortAgreeLemmas

section SalesStrategyLemmas

theorem isEmpty_false_of_ne_nil {α : Type} {l : List α} (h : l ≠ []) :
    l.isEmpty = false := by
  cases l with
  | nil => exact absurd rfl h
  | cons a t => rfl

theorem pandasSummary_of_ne_nil (D : List SalesRow) (hne : D ≠ []) :
    pandasSummary D = some
      { total_sales := round2 (totalSales D)
        total_regions := (pandasRegions D).length
        average_per_region :=
          if 0 < (pandasRegions D).length
          then round2 (totalSales D / (pandasRegions D).length) else 0 } := by
  unfold pandasSummary analyzeWithPandasSales
  rw [isEmpty_false_of_ne_nil hne]
  rfl

theorem pandasRegionNames_of_ne_nil (D : List SalesRow) (hne : D ≠ []) :
    pandasRegionNames D
      = (sortRecordsDesc ((pandasRegions D).map (mkRegionRecord D))).map
          RegionRecord.region := by
  unfold pandasRegionNames analyzeWithPandasSales
  rw [isEmpty_false_of_ne_nil hne]
  rfl

theorem pandasTopName_of_ne_nil (D : List SalesRow) (hne : D ≠ []) :
    pandasTopName D
      = ((sortRecordsDesc ((pandasRegions D).map (mkRegionRecord D))).head?).map
          RegionRecord.region := by
  unfold pandasTopName analyzeWithPandasSales
  rw [isEmpty_false_of_ne_nil hne]
  rfl

theorem pandasBottomName_of_ne_nil (D : List SalesRow) (hne : D ≠ []) :
    pandasBottomName D
      = ((sortRecordsDesc ((pandasRegions D).map (mkRegionRecord D))).getLast?).map
          RegionRecord.region := by
  unfold pandasBottomName analyzeWithPandasSales
  rw [isEmpty_false_of_ne_nil hne]
  rfl

theorem sortRecordsDesc_map (D : List SalesRow) (l : List String) :
    sortRecordsDesc (l.map (mkRegionRecord D))
      = (List.insertionSort
          (fun a b => round2 (regionSum D b) ≤ round2 (regionSum D a)) l).map
          (mkRegionRecord D) :=
  insertionSort_map
    (fun a b => round2 (regionSum D b) ≤ round2 (regionSum D a))
    (fun a b : RegionRecord => b.sales_amount_sum ≤ a.sales_amount_sum)
    (mkRegionRecord D) (fun _ _ => Iff.rfl) l

theorem salesPipelineRows_eq (D : List SalesRow) :
    salesPipelineRows D
      = (List.insertionSort
          (fun a b => round2 (regionSum D b) ≤ round2 (regionSum D a))
          (firstDedup (D.map SalesRow.region))).map
          (fun r => ({ region := r
                       total_sales := round2 (regionSum D r)
                       average_sales := round2 (regionSum D r / regionCount D r)
                       count := regionCount D r
                       min_sale := qListMin (amountsFor D r)
                       max_sale := qListMax (amountsFor D r)
                       percentage_of_total := round2 (regionSum D r /
                         ((salesGroupStage D).map SalesGroupRow.total_sales).sum * 100)
                     } : PipeRegionRecord)) := by
  unfold salesPipelineRows salesSortStage
  have h2 : salesProjectStage D
      = ((firstDedup (D.map SalesRow.region)).map (fun r =>
          ({ _id := r
             total_sales := regionSum D r
             average_sales := regionSum D r / regionCount D r
             count := regionCount D r
             min_sale := qListMin (amountsFor D r)
             max_sale := qListMax (amountsFor D r) } : SalesGroupRow))).map
          (fun g => ({ region := g._id
                       total_sales := round2 g.total_sales
                       average_sales := round2 g.average_sales
                       count := g.count
                       min_sale := g.min_sale
                       max_sale := g.max_sale
                       percentage_of_total := round2 (g.total_sales /
                         ((salesGroupStage D).map SalesGroupRow.total_sales).sum * 100)
                     } : PipeRegionRecord)) := rfl
  rw [h2, List.map_map]
  exact insertionSort_map
    (fun a b => round2 (regionSum D b) ≤ round2 (regionSum D a))
    (fun a b : PipeRegionRecord => b.total_sales ≤ a.total_sales)
    _ (fun _ _ => Iff.rfl) _

theorem salesPipelineRows_ne_nil (D : List SalesRow) (hne : D ≠ []) :
    salesPipelineRows D ≠ [] := by
  rw [salesPipelineRows_eq]
  intro h
  have h := List.map_eq_nil_iff.mp h
  have hp := List.perm_insertionSort
    (fun a b => round2 (regionSum D b) ≤ round2 (regionSum D a))
    (firstDedup (D.map SalesRow.region))
  rw [h] at hp
  refine firstDedup_ne_nil ?_ hp.symm.eq_nil
  cases D with
  | nil => exact absurd rfl hne
  | cons x t => exact List.cons_ne_nil _ _

theorem pipeSummary_of_ne_nil (D : List SalesRow) (hne : D ≠ []) :
    pipeSummary D = some
      { total_sales := round2 (((salesPipelineRows D).map
          PipeRegionRecord.total_sales).sum)
        total_regions := (salesPipelineRows D).length
        average_per_region :=
          if 0 < (salesPipelineRows D).length
          then round2 (((salesPipelineRows D).map PipeRegionRecord.total_sales).sum
            / (salesPipelineRows D).length) else 0 } := by
  unfold pipeSummary aggSales postProcessSales
  rw [isEmpty_false_of_ne_nil (salesPipelineRows_ne_nil D hne)]
  rfl

theorem pipeRegionNames_of_ne_nil (D : List SalesRow) (hne : D ≠ []) :
    pipeRegionNames D = (salesPipelineRows D).map PipeRegionRecord.region := by
  unfold pipeRegionNames aggSales postProcessSales
  rw [isEmpty_false_of_ne_nil (salesPipelineRows_ne_nil D hne)]
  rfl

theorem pipeTopName_of_ne_nil (D : List SalesRow) (hne : D ≠ []) :
    pipeTopName D = ((salesPipelineRows D).head?).map PipeRegionRecord.region := by
  unfold pipeTopName aggSales postProcessSales
  rw [isEmpty_false_of_ne_nil (salesPipelineRows_ne_nil D hne)]
  rfl

theorem pipeBottomName_of_ne_nil (D : List SalesRow) (hne : D ≠ []) :
    pipeBottomName D = ((salesPipelineRows D).getLast?).map PipeRegionRecord.region := by
  unfold pipeBottomName aggSales postProcessSales
  rw [isEmpty_false_of_ne_nil (salesPipelineRows_ne_nil D hne)]
  rfl

end SalesStrategyLemmas

/-- C1: the claim says the in-memory and pushed-down region-aggregate
strategies agree on summary fields, grouping keys and top/bottom region
modulo rounding to 2 decimals.  They do not: `post_process_aggregation`
sums the **already rounded** per-region totals, while `analyze_with_pandas`
rounds the exact grand total, and the accumulated rounding residue exceeds
the 2-decimal tolerance.  With two regions of 0.006 each the in-memory
summary total is 0.01 but the pushed-down summary total is 0.02. -/
theorem c1_strategy_equivalence_counterexample :
    (pandasSummary [⟨"A", 6/1000⟩, ⟨"B", 6/1000⟩]).map SalesSummary.total_sales
      = some (1/100)
    ∧ (pipeSummary [⟨"A", 6/1000⟩, ⟨"B", 6/1000⟩]).map SalesSummary.total_sales
      = some (2/100)
    ∧ pandasSummary [⟨"A", 6/1000⟩, ⟨"B", 6/1000⟩]
      ≠ pipeSummary [⟨"A", 6/1000⟩, ⟨"B", 6/1000⟩] := by
  have hne : ([⟨"A", 6/1000⟩, ⟨"B", 6/1000⟩] : List SalesRow) ≠ [] := by
    exact List.cons_ne_nil _ _
  have h1 : (pandasSummary [⟨"A", 6/1000⟩, ⟨"B", 6/1000⟩]).map SalesSummary.total_sales
      = some (1/100) := by
    rw [pandasSummary_of_ne_nil _ hne]
    norm_num [totalSales, round2]
  have h2 : (pipeSummary [⟨"A", 6/1000⟩, ⟨"B", 6/1000⟩]).map SalesSummary.total_sales
      = some (2/100) := by
    rw [pipeSummary_of_ne_nil _ hne, salesPipelineRows_eq]
    norm_num [firstDedup, firstDedupGo, regionSum, amountsFor,
      List.insertionSort, List.orderedInsert, round2, List.filter, Function.comp,
      show (("A" : String) == "B") = false from rfl,
      show (("B" : String) == "A") = false from rfl,
      show (("A" : String) == "A") = true from rfl,
      show (("B" : String) == "B") = true from rfl]
  refine ⟨h1, h2, fun h => ?_⟩
  have := congrArg (Option.map SalesSummary.total_sales) h
  rw [h1, h2] at this
  have := Option.some.inj this
  norm_num at this

/-- C1 (amended): for a non-empty dataset whose per-region sums are exact
at 2 decimals (so no rounding residue accumulates in the pushed-down
summary) and whose rounded per-region sums are pairwise distinct (so the
descending sort has a unique first and last row), the two strategies agree:
equal summary objects (total, region count, average per region), the same
multiset of grouping keys, and the same top and bottom region.  Without the
exactness hypothesis the summary totals can differ beyond 2-decimal
rounding (see the counterexample); with tied rounded totals the top/bottom
choice depends on the store's unspecified group order on both paths. -/
theorem c1_strategy_equivalence_amended (D : List SalesRow) (hne : D ≠ [])
    (hexact : ∀ r ∈ firstDedup (D.map SalesRow.region),
      round2 (regionSum D r) = regionSum D r)
    (hdist : (firstDedup (D.map SalesRow.region)).Pairwise
      fun a b => round2 (regionSum D a) ≠ round2 (regionSum D b)) :
    pandasSummary D = pipeSummary D
    ∧ List.Perm (pandasRegionNames D) (pipeRegionNames D)
    ∧ pandasTopName D = pipeTopName D
    ∧ pandasBottomName D = pipeBottomName D := by
  have hpermP : List.Perm (pandasRegions D) (firstDedup (D.map SalesRow.region)) :=
    List.perm_insertionSort _ _
  have hnames₁ : pandasRegionNames D
      = List.insertionSort
          (fun a b => round2 (regionSum D b) ≤ round2 (regionSum D a))
          (pandasRegions D) := by
    rw [pandasRegionNames_of_ne_nil D hne, sortRecordsDesc_map, List.map_map]
    exact (List.map_congr_left fun r _ => rfl).trans (List.map_id _)
  have hnames₂ : pipeRegionNames D
      = List.insertionSort
          (fun a b => round2 (regionSum D b) ≤ round2 (regionSum D a))
          (firstDedup (D.map SalesRow.region)) := by
    rw [pipeRegionNames_of_ne_nil D hne, salesPipelineRows_eq, List.map_map]
    exact (List.map_congr_left fun r _ => rfl).trans (List.map_id _)
  have htop₁ : pandasTopName D
      = (List.insertionSort
          (fun a b => round2 (regionSum D b) ≤ round2 (regionSum D a))
          (pandasRegions D)).head? := by
    rw [pandasTopName_of_ne_nil D hne, sortRecordsDesc_map, List.head?_map]
    cases (List.insertionSort
      (fun a b => round2 (regionSum D b) ≤ round2 (regionSum D a))
      (pandasRegions D)).head? <;> rfl
  have htop₂ : pipeTopName D
      = (List.insertionSort
          (fun a b => round2 (regionSum D b) ≤ round2 (regionSum D a))
          (firstDedup (D.map SalesRow.region))).head? := by
    rw [pipeTopName_of_ne_nil D hne, salesPipelineRows_eq, List.head?_map]
    cases (List.insertionSort
      (fun a b => round2 (regionSum D b) ≤ round2 (regionSum D a))
      (firstDedup (D.map SalesRow.region))).head? <;> rfl
  have hbot₁ : pandasBottomName D
      = (List.insertionSort
          (fun a b => round2 (regionSum D b) ≤ round2 (regionSum D a))
          (pandasRegions D)).getLast? := by
    rw [pandasBottomName_of_ne_nil D hne, sortRecordsDesc_map, List.getLast?_map]
    cases (List.insertionSort
      (fun a b => round2 (regionSum D b) ≤ round2 (regionSum D a))
      (pandasRegions D)).getLast? <;> rfl
  have hbot₂ : pipeBottomName D
      = (List.insertionSort
          (fun a b => round2 (regionSum D b) ≤ round2 (regionSum D a))
          (firstDedup (D.map SalesRow.region))).getLast? := by
    rw [pipeBottomName_of_ne_nil D hne, salesPipelineRows_eq, List.getLast?_map]
    cases (List.insertionSort
      (fun a b => round2 (regionSum D b) ≤ round2 (regionSum D a))
      (firstDedup (D.map SalesRow.region))).getLast? <;> rfl
  have hnd₁ : (pandasRegions D).Pairwise
      (fun a b => round2 (regionSum D a) ≠ round2 (regionSum D b)) :=
    (List.Perm.pairwise_iff (fun h => h.symm) hpermP).mpr hdist
  have hagree := sort_desc_agree (fun r => round2 (regionSum D r))
    (pandasRegions D) (firstDedup (D.map SalesRow.region)) hpermP hnd₁
  have hcov : ∀ x ∈ D, x.region ∈ firstDedup (D.map SalesRow.region) := fun x hx =>
    (mem_firstDedup _ _).mpr (List.mem_map_of_mem _ hx)
  have htot : ((salesPipelineRows D).map PipeRegionRecord.total_sales).sum
      = totalSales D := by
    have hmap : (salesPipelineRows D).map PipeRegionRecord.total_sales
        = (List.insertionSort
            (fun a b => round2 (regionSum D b) ≤ round2 (regionSum D a))
            (firstDedup (D.map SalesRow.region))).map
            (fun r => round2 (regionSum D r)) := by
      rw [salesPipelineRows_eq, List.map_map]
      exact List.map_congr_left fun r _ => rfl
    rw [hmap, List.Perm.sum_eq ((List.perm_insertionSort _ _).map _)]
    rw [List.map_congr_left fun r hr => hexact r hr]
    exact sum_regionSum_eq_totalSales D _ (nodup_firstDedup _) hcov
  have hlen : (salesPipelineRows D).length
      = (firstDedup (D.map SalesRow.region)).length := by
    rw [salesPipelineRows_eq, List.length_map, (List.perm_insertionSort _ _).length_eq]
  have hlenP : (pandasRegions D).length
      = (firstDedup (D.map SalesRow.region)).length := hpermP.length_eq
  refine ⟨?_, ?_, ?_, ?_⟩
  · rw [pandasSummary_of_ne_nil D hne, pipeSummary_of_ne_nil D hne, htot, hlen, hlenP]
  · rw [hnames₁, hnames₂]
    exact ((List.perm_insertionSort _ _).trans hpermP).trans
      (List.perm_insertionSort _ _).symm
  · rw [htop₁, htop₂]
    exact hagree.1
  · rw [hbot₁, hbot₂]
    exact hagree.2

/-- C1 witness: the amended equivalence applied to a two-region dataset
with 2-decimal-exact, distinct region sums. -/
theorem c1_strategy_equivalence_witness :
    pandasSummary [⟨"A", 3⟩, ⟨"B", 1⟩] = pipeSummary [⟨"A", 3⟩, ⟨"B", 1⟩]
    ∧ List.Perm (pandasRegionNames [⟨"A", 3⟩, ⟨"B", 1⟩])
        (pipeRegionNames [⟨"A", 3⟩, ⟨"B", 1⟩])
    ∧ pandasTopName [⟨"A", 3⟩, ⟨"B", 1⟩] = pipeTopName [⟨"A", 3⟩, ⟨"B", 1⟩]
    ∧ pandasBottomName [⟨"A", 3⟩, ⟨"B", 1⟩] = pipeBottomName [⟨"A", 3⟩, ⟨"B", 1⟩] := by
  refine c1_strategy_equivalence_amended [⟨"A", 3⟩, ⟨"B", 1⟩]
    (List.cons_ne_nil _ _) ?_ ?_
  · intro r hr
    rw [show firstDedup ([⟨"A", 3⟩, ⟨"B", 1⟩].map SalesRow.region) = ["A", "B"]
      from rfl] at hr
    rcases List.mem_cons.mp hr with h | h
    · subst h
      norm_num [regionSum, amountsFor, round2, List.filter,
        show (("A" : String) == "B") = false from rfl,
        show (("B" : String) == "A") = false from rfl,
        show (("A" : String) == "A") = true from rfl,
        show (("B" : String) == "B") = true from rfl]
    · rw [List.mem_singleton.mp h]
      norm_num [regionSum, amountsFor, round2, List.filter,
        show (("A" : String) == "B") = false from rfl,
        show (("B" : String) == "A") = false from rfl,
        show (("A" : String) == "A") = true from rfl,
        show (("B" : String) == "B") = true from rfl]
  · rw [show firstDedup ([⟨"A", 3⟩, ⟨"B", 1⟩].map SalesRow.region) = ["A", "B"]
      from rfl]
    refine List.pairwise_cons.mpr ⟨?_, List.pairwise_singleton _ _⟩
    intro b hb
    rw [List.mem_singleton.mp hb]
    norm_num [regionSum, amountsFor, round2, List.filter,
      show (("A" : String) == "B") = false from rfl,
      show (("B" : String) == "A") = false from rfl,
      show (("A" : String) == "A") = true from rfl,
      show (("B" : String) == "B") = true from rfl]

end GenericCrud
